import Mathlib

/-!
# auto_aspect plugin: embedding of `src/auto_aspect.cpp`

A shallow embedding of the detection-and-apply state machine of the plugin
(`adjust_scene_if_needed`, `find_first_object`, `extract_media_info`, the two
dimension probes and `project_load_handler`) together with the properties of
the specification that concern them.

Conventions.
* `std::wstring` is a list of UTF-16 code units (`WString`); `const char*` is
  an optional list of bytes (`none` is the null pointer).
* The three `std::atomic<bool>` globals are the fields of `Globals`; every
  function that touches them takes and returns a `Globals` value.  Only the
  single worker advances the machine, so one invocation is one atomic step.
* Host and operating-system calls are fields of `EDIT_SECTION` and `OS`: the
  model is parametric in what they answer.
* `int` fields are `Int`.  The only arithmetic on them is the loop counter of
  `find_first_object`, whose increment has no value once it would pass
  `INT_MAX`, and the `static_cast<int>` of the probes, which is modelled with
  its wrap-around.
* A call that does not return has the result `none`: `find_first_object`
  when its loop cannot exit, and with it the invocation of
  `adjust_scene_if_needed` that called it and every run that contains it.
-/

namespace AutoAspect

/-! ## Strings and logging -/

/-- A `std::wstring`: the UTF-16 code units, without the terminator. -/
abbrev WString := List Nat

/-- A `const char*` that is not null: the bytes before the terminator. -/
abbrev CString := List Nat

/-- A wide string literal `L"..."` (all literals of the source are in the BMP,
so one code unit per character). -/
def L (s : String) : WString := s.toList.map Char.toNat

/-- Decimal text of an `int`, as `std::to_wstring(int)`. -/
def to_wstring (n : Int) : WString := L (toString n)

/-! ## Windows result codes -/

/-- A Windows `HRESULT` (a signed 32-bit value). -/
abbrev HRESULT := Int

def S_OK : HRESULT := 0
/-- The value `0x80004005` read as a signed 32-bit integer. -/
def E_FAIL : HRESULT := 0x80004005 - 2 ^ 32
/-- The value `0x80010106` read as a signed 32-bit integer. -/
def RPC_E_CHANGED_MODE : HRESULT := 0x80010106 - 2 ^ 32

def SUCCEEDED (hr : HRESULT) : Bool := decide (0 ≤ hr)
def FAILED (hr : HRESULT) : Bool := decide (hr < 0)

/-- A value stored in a `UINT` / `UINT32` variable. -/
def toUInt32 (n : Nat) : Nat := n % 2 ^ 32

/-- The conversion `static_cast<int>(w)` of an unsigned 32-bit value. -/
def toInt32 (w : Nat) : Int :=
  if w % 2 ^ 32 < 2 ^ 31 then ((w % 2 ^ 32 : Nat) : Int) else ((w % 2 ^ 32 : Nat) : Int) - 2 ^ 32

/-! ## Operating-system collaborators -/

/-- Results of the COM / WIC calls `get_image_dimensions` makes for one path. -/
structure ImageCalls where
  coInitApartment : HRESULT
  coInitMulti : HRESULT
  createFactory2 : HRESULT
  createFactory1 : HRESULT
  createDecoder : HRESULT
  getFrame : HRESULT
  getSize : HRESULT
  /-- What `GetSize` stores through `&w`. -/
  w : Nat
  /-- What `GetSize` stores through `&h`. -/
  h : Nat

/-- Results of the Media Foundation calls `get_video_dimensions` makes for one
path; `init_result` is the cached result of the one-time `MFStartup`. -/
structure VideoCalls where
  init_result : HRESULT
  coInitApartment : HRESULT
  coInitMulti : HRESULT
  createAttributes : HRESULT
  createSourceReader : HRESULT
  getNativeMediaType : HRESULT
  getCurrentMediaType : HRESULT
  getAttributeSize : HRESULT
  /-- What `MFGetAttributeSize` stores through `&w`. -/
  w : Nat
  /-- What `MFGetAttributeSize` stores through `&h`. -/
  h : Nat

/-- The operating system as seen by the plugin. `MultiByteToWideChar text` is
`none` when the call fails (returns 0) and otherwise the converted characters
without the terminator (the call then returns their number plus one). -/
structure OS where
  MultiByteToWideChar : CString → Option WString
  wic : WString → ImageCalls
  mf : WString → VideoCalls

def utf8_to_wide (os : OS) (text : Option CString) : WString :=
  match text with
  | none => []
  | some t =>
    let required : Int :=
      match os.MultiByteToWideChar t with
      | none => 0
      | some ws => (ws.length : Int) + 1
    if required ≤ 1 then []
    else
      match os.MultiByteToWideChar t with
      | some ws => ws
      | none => List.replicate (required - 1).toNat 0

/-- The class `ScopedCoInitialize` after its constructor ran. -/
structure ScopedCoInitialize where
  result_ : HRESULT := E_FAIL
  need_uninitialize_ : Bool := false
deriving DecidableEq, Repr

/-- The constructor of `ScopedCoInitialize`, given what the two
`CoInitializeEx` calls answer. -/
def ScopedCoInitialize.ctor (apartment multi : HRESULT) : ScopedCoInitialize :=
  if SUCCEEDED apartment then { result_ := apartment, need_uninitialize_ := true }
  else if apartment = RPC_E_CHANGED_MODE then
    if SUCCEEDED multi then { result_ := multi, need_uninitialize_ := true }
    else if multi = RPC_E_CHANGED_MODE then { result_ := S_OK }
    else { result_ := multi }
  else { result_ := apartment }

def ScopedCoInitialize.ok (c : ScopedCoInitialize) : Bool := SUCCEEDED c.result_

def ensure_media_foundation_started (init_result : HRESULT) : Bool := SUCCEEDED init_result

/-- The function `get_image_dimensions(path, width, height)`: the result and
the values of the two reference parameters afterwards. -/
def get_image_dimensions (os : OS) (path : WString) (width height : Int) : Bool × Int × Int :=
  let c := os.wic path
  if !(ScopedCoInitialize.ctor c.coInitApartment c.coInitMulti).ok then (false, width, height)
  else if FAILED c.createFactory2 && FAILED c.createFactory1 then (false, width, height)
  else if FAILED c.createDecoder then (false, width, height)
  else if FAILED c.getFrame then (false, width, height)
  else
    let w := toUInt32 c.w
    let h := toUInt32 c.h
    if FAILED c.getSize || w == 0 || h == 0 then (false, width, height)
    else (true, toInt32 w, toInt32 h)

/-- The function `get_video_dimensions(path, width, height)`: the result and
the values of the two reference parameters afterwards. -/
def get_video_dimensions (os : OS) (path : WString) (width height : Int) : Bool × Int × Int :=
  let c := os.mf path
  if !ensure_media_foundation_started c.init_result then (false, width, height)
  else if !(ScopedCoInitialize.ctor c.coInitApartment c.coInitMulti).ok then (false, width, height)
  else if FAILED c.createAttributes then (false, width, height)
  else if FAILED c.createSourceReader then (false, width, height)
  else if FAILED c.getNativeMediaType && FAILED c.getCurrentMediaType then (false, width, height)
  else
    let w := toUInt32 c.w
    let h := toUInt32 c.h
    if FAILED c.getAttributeSize || w == 0 || h == 0 then (false, width, height)
    else (true, toInt32 w, toInt32 h)

/-! ## Host collaborators -/

/-- An object handle that is not null. -/
abbrev OBJECT_HANDLE := Nat

/-- The fields of the SDK's `OBJECT_LAYER_FRAME` the plugin reads. -/
structure OBJECT_LAYER_FRAME where
  layer : Int := 0
  start : Int := 0
deriving DecidableEq, Repr

/-- The fields of the SDK's `EDIT_INFO` the plugin reads or writes. -/
structure EDIT_INFO where
  width : Int
  height : Int
  layer_max : Int
deriving DecidableEq, Repr

/-- The host's `EDIT_SECTION`. `info` is `none` for a null pointer, `output_log`
tells whether the log function pointer is set; an object lookup answers `none`
for a null handle and a parameter lookup answers `none` for a null string. -/
structure EDIT_SECTION where
  info : Option EDIT_INFO
  output_log : Bool
  find_object : Int → Int → Option OBJECT_HANDLE
  get_object_layer_frame : OBJECT_HANDLE → OBJECT_LAYER_FRAME
  get_object_item_value : OBJECT_HANDLE → WString → WString → Option CString

/-- The function `output_log(edit, message)`: the lines handed to the host's log. -/
def output_log (edit : Option EDIT_SECTION) (message : WString) : List WString :=
  match edit with
  | none => []
  | some e => if e.output_log && !message.isEmpty then [message] else []

/-! ## Media description of an object -/

inductive MediaKind where
  | None
  | Image
  | Video
deriving DecidableEq, Repr

structure MediaInfo where
  kind : MediaKind := MediaKind.None
  path : WString := []
deriving DecidableEq, Repr

structure Candidate where
  effect : WString
  item : WString
  kind : MediaKind
deriving DecidableEq, Repr

/-- The table `candidates[]` of `extract_media_info`. -/
def candidates : List Candidate :=
  [ { effect := L "動画ファイル", item := L "ファイル", kind := MediaKind.Video },
    { effect := L "VideoFile", item := L "File", kind := MediaKind.Video },
    { effect := L "画像ファイル", item := L "ファイル", kind := MediaKind.Image },
    { effect := L "ImageFile", item := L "File", kind := MediaKind.Image } ]

/-- The `for` loop of `extract_media_info` over the remaining candidates,
followed by the final `return {}`. -/
def extract_media_info.loop (os : OS) (e : EDIT_SECTION) (object : OBJECT_HANDLE) :
    List Candidate → MediaInfo
  | [] => {}
  | candidate :: rest =>
    match e.get_object_item_value object candidate.effect candidate.item with
    | none => extract_media_info.loop os e object rest
    | some value =>
      let path := utf8_to_wide os (some value)
      if !path.isEmpty then { kind := candidate.kind, path := path }
      else extract_media_info.loop os e object rest

def extract_media_info (os : OS) (edit : Option EDIT_SECTION) (object : OBJECT_HANDLE) :
    MediaInfo :=
  match edit with
  | none => {}
  | some e => extract_media_info.loop os e object candidates

/-! ## Timeline scan -/

/-- The local variables `result`, `result_frame`, `found` of `find_first_object`. -/
structure ScanState where
  result : Option OBJECT_HANDLE := none
  result_frame : OBJECT_LAYER_FRAME := {}
  found : Bool := false
deriving DecidableEq, Repr

/-- The largest value of an `int`. -/
def INT_MAX : Int := 2147483647

/-- One iteration of the loop body of `find_first_object`. -/
def find_first_object.body (e : EDIT_SECTION) (st : ScanState) (layer : Int) : ScanState :=
  match e.find_object layer 0 with
  | none => st
  | some object =>
    let frame := e.get_object_layer_frame object
    if !st.found || decide (frame.start < st.result_frame.start) ||
        (decide (frame.start = st.result_frame.start) &&
          decide (frame.layer < st.result_frame.layer)) then
      { result := some object, result_frame := frame, found := true }
    else st

/-- The statement `++layer` on an `int`: the next value, or `none` when the
increment would pass `INT_MAX`. -/
def find_first_object.incr (layer : Int) : Option Int :=
  if layer < INT_MAX then some (layer + 1) else none

/-- The loop `for (...; layer <= max_layer; ++layer)` of `find_first_object`
from the counter value `layer` and the locals `st` on. `fuel` bounds the number
of times the test is evaluated. The result is the locals at the exit of the
loop, or `none` when the loop does not exit: the increment has no value, or
the fuel is used up. -/
def find_first_object.loop (e : EDIT_SECTION) (max_layer : Int) :
    Nat → Int → ScanState → Option ScanState
  | 0, _, _ => none
  | fuel + 1, layer, st =>
    if layer ≤ max_layer then
      match find_first_object.incr layer with
      | none => none
      | some next =>
        find_first_object.loop e max_layer fuel next (find_first_object.body e st layer)
    else some st

/-- The function `find_first_object(edit)`: `none` when the call does not
return, `some none` when it returns `nullptr`, `some (some object)` when it
returns an object. The loop gets `max_layer + 2` evaluations of its test, one
more than the `max_layer + 1` iterations of a loop that exits. -/
def find_first_object (edit : Option EDIT_SECTION) : Option (Option OBJECT_HANDLE) :=
  match edit with
  | none => some none
  | some e =>
    match e.info with
    | none => some none
    | some info =>
      let max_layer := info.layer_max
      if max_layer < 0 then some none
      else
        (find_first_object.loop e max_layer (max_layer.toNat + 2) 0 {}).map
          fun st => st.result

/-! ## The adjuster -/

/-- The process-wide flags `g_pending_reset`, `g_seen_first_object`, `g_adjusted`. -/
structure Globals where
  g_pending_reset : Bool := true
  g_seen_first_object : Bool := false
  g_adjusted : Bool := false
deriving DecidableEq, Repr

/-- What one invocation of `adjust_scene_if_needed` does that is visible from
outside, in program order. -/
inductive Effect where
  /-- The call `find_first_object(edit)`. -/
  | scan
  /-- The call `extract_media_info(edit, object)`. -/
  | extract (object : OBJECT_HANDLE)
  /-- The call `get_image_dimensions` or `get_video_dimensions` on a path. -/
  | probe (kind : MediaKind) (path : WString)
  /-- The assignments to `edit->info->width` and `edit->info->height`. -/
  | setSize (width height : Int)
  /-- A line handed to `edit->output_log`. -/
  | log (message : WString)
deriving DecidableEq, Repr

/-- Result of one invocation that returns: the returned `bool`, the flags and `*edit->info`
afterwards (`none` when there is no edit section or no info), and the effects. -/
structure Outcome where
  ret : Bool
  g : Globals
  info : Option EDIT_INFO
  trace : List Effect
deriving DecidableEq, Repr

/-- The message of the probe-failure branch. -/
def failureMessage (path : WString) : WString :=
  L "[auto_aspect] \"" ++ path ++ L "\" のサイズ取得に失敗しました"

/-- The message of the resize branch. -/
def resizeMessage (width height : Int) : WString :=
  L "[auto_aspect] シーン解像度を " ++ to_wstring width ++ L " x " ++ to_wstring height ++
    L " に変更しました"

/-- The message of the branch that finds the canvas already equal. -/
def alreadyMessage : WString :=
  L "[auto_aspect] シーン解像度は既に読み込みファイルと一致しています"

/-- The `switch (info.kind)` of `adjust_scene_if_needed` with the locals
`width = 0`, `height = 0`, `ok = false` before it: the values of `ok`, `width`
and `height` after it. -/
def probeDimensions (os : OS) (kind : MediaKind) (path : WString) : Bool × Int × Int :=
  match kind with
  | MediaKind.Image => get_image_dimensions os path 0 0
  | MediaKind.Video => get_video_dimensions os path 0 0
  | MediaKind.None => (false, 0, 0)

/-- The function `adjust_scene_if_needed(edit)` from the flags `g`: `none`
when the invocation does not return (its call of `find_first_object` does
not), otherwise the outcome. -/
def adjust_scene_if_needed (os : OS) (g : Globals) (edit : Option EDIT_SECTION) :
    Option Outcome :=
  match edit with
  | none => some { ret := false, g := g, info := none, trace := [] }
  | some e =>
    match e.info with
    | none => some { ret := false, g := g, info := none, trace := [] }
    | some einfo =>
      -- g_pending_reset.exchange(false) and the two stores it guards
      let g1 : Globals :=
        if g.g_pending_reset then
          { g_pending_reset := false, g_seen_first_object := false, g_adjusted := false }
        else { g with g_pending_reset := false }
      if g1.g_adjusted then some { ret := false, g := g1, info := some einfo, trace := [] }
      else
        match find_first_object edit with
        | none => none
        | some none => some { ret := false, g := g1, info := some einfo, trace := [Effect.scan] }
        | some (some first_object) =>
          let info := extract_media_info os edit first_object
          if info.kind = MediaKind.None || info.path.isEmpty then
            some { ret := false, g := g1, info := some einfo,
                   trace := [Effect.scan, Effect.extract first_object] }
          else
            -- g_seen_first_object.exchange(true)
            let first_media_object := !g1.g_seen_first_object
            let g2 : Globals := { g1 with g_seen_first_object := true }
            if !first_media_object then
              some { ret := false, g := g2, info := some einfo,
                     trace := [Effect.scan, Effect.extract first_object] }
            else
              let (ok, width, height) := probeDimensions os info.kind info.path
              let pre := [Effect.scan, Effect.extract first_object,
                Effect.probe info.kind info.path]
              if !ok || decide (width ≤ 0) || decide (height ≤ 0) then
                some { ret := false, g := g2, info := some einfo,
                       trace := pre ++
                         (output_log edit (failureMessage info.path)).map Effect.log }
              else if einfo.width ≠ width || einfo.height ≠ height then
                some { ret := true, g := { g2 with g_adjusted := true },
                       info := some { einfo with width := width, height := height },
                       trace := pre ++ [Effect.setSize width height] ++
                         (output_log edit (resizeMessage width height)).map Effect.log }
              else
                some { ret := true, g := { g2 with g_adjusted := true }, info := some einfo,
                       trace := pre ++ (output_log edit alreadyMessage).map Effect.log }

/-- The function `project_load_handler`. -/
def project_load_handler (g : Globals) : Globals := { g with g_pending_reset := true }

/-- The lines an invocation handed to the host's log. -/
def Outcome.logs (o : Outcome) : List WString :=
  o.trace.filterMap fun
    | Effect.log m => some m
    | _ => none

/-- The canvas sizes an invocation wrote. -/
def Outcome.writes (o : Outcome) : List (Int × Int) :=
  o.trace.filterMap fun
    | Effect.setSize w h => some (w, h)
    | _ => none

/-! ## Sequences of invocations -/

/-- One tick of the poll loop: what the operating system and the host present
to that invocation (timeline, canvas, log function). -/
structure Tick where
  os : OS
  edit : Option EDIT_SECTION

/-- Whether the scanner returns on the edit section of a tick. -/
def scanReturns (t : Tick) : Bool := (find_first_object t.edit).isSome

/-- Whether the timeline of a tick has a first object that carries media: the
scanner returns an object and the extractor gives it a kind and a non-empty
path. -/
def findsMedia (t : Tick) : Bool :=
  match find_first_object t.edit with
  | some (some object) =>
    let info := extract_media_info t.os t.edit object
    !(decide (info.kind = MediaKind.None) || info.path.isEmpty)
  | _ => false

/-- Whether the timeline of a tick shows no media: the scanner returns no
object, or an object for which the extractor gives kind `None` or an empty
path. -/
def noMedia (t : Tick) : Bool :=
  match find_first_object t.edit with
  | none => false
  | some none => true
  | some (some object) =>
    let info := extract_media_info t.os t.edit object
    decide (info.kind = MediaKind.None) || info.path.isEmpty

/-- Successive invocations with no project-load event between them: the flags
are threaded, each tick brings its own edit section. The outcomes in order, or
`none` when one of the invocations does not return. -/
def runTicks (g : Globals) : List Tick → Option (List Outcome)
  | [] => some []
  | t :: ts =>
    match adjust_scene_if_needed t.os g t.edit with
    | none => none
    | some o => (runTicks o.g ts).map fun os => o :: os

/-- The flags after a sequence of invocations, `none` when one of them does
not return. -/
def finalGlobals (g : Globals) : List Tick → Option Globals
  | [] => some g
  | t :: ts =>
    match adjust_scene_if_needed t.os g t.edit with
    | none => none
    | some o => finalGlobals o.g ts

/-- The flags are armed: a reset is pending, or nothing was seen or adjusted. -/
def Armed (g : Globals) : Prop :=
  g.g_pending_reset = true ∨ (g.g_seen_first_object = false ∧ g.g_adjusted = false)

/-- The `EDIT_INFO` an invocation works on, if any. -/
def infoOf (edit : Option EDIT_SECTION) : Option EDIT_INFO := edit.bind fun e => e.info

/-- Whether the host's log function is set. -/
def hasSink (edit : Option EDIT_SECTION) : Bool :=
  match edit with
  | none => false
  | some e => e.output_log

/-- What the worker and the host do to the plugin: a project-load event or a tick. -/
inductive Event where
  | load
  | tick (t : Tick)

/-- The flags together with the canvas of the live project. -/
structure Session where
  g : Globals
  width : Int
  height : Int

/-- The edit section of a tick with the canvas of the live project in its info. -/
def withCanvas (width height : Int) (edit : Option EDIT_SECTION) : Option EDIT_SECTION :=
  edit.map fun e =>
    { e with info := e.info.map fun i => { i with width := width, height := height } }

/-- Whether the scanner returns on the tick of an event; a load event has none. -/
def eventReturns : Event → Bool
  | Event.load => true
  | Event.tick t => scanReturns t

/-- One event on a session; the canvas changes only through what the
invocation writes into `edit->info`. `none` when the invocation of a tick does
not return. -/
def Session.step (s : Session) : Event → Option Session
  | Event.load => some { s with g := project_load_handler s.g }
  | Event.tick t =>
    match adjust_scene_if_needed t.os s.g (withCanvas s.width s.height t.edit) with
    | none => none
    | some o =>
      match o.info with
      | some i => some { g := o.g, width := i.width, height := i.height }
      | none => some { s with g := o.g }

/-- A sequence of events on a session, `none` when an invocation among them
does not return. -/
def Session.run (s : Session) : List Event → Option Session
  | [] => some s
  | ev :: events =>
    match Session.step s ev with
    | none => none
    | some s1 => Session.run s1 events

/-! ## Specification-side definitions -/

/-- A candidate qualifies for an object when the host's parameter lookup gives
a value and the value converts to a non-empty path. -/
def qualifies (os : OS) (e : EDIT_SECTION) (object : OBJECT_HANDLE) (c : Candidate) : Bool :=
  match e.get_object_item_value object c.effect c.item with
  | none => false
  | some value => !(utf8_to_wide os (some value)).isEmpty

/-- The extractor as the specification words it: the first candidate of the
declared list whose parameter resolves to a non-empty value, tagged with that
candidate's kind; kind `None` when no candidate matches. -/
def specExtract (os : OS) (e : EDIT_SECTION) (object : OBJECT_HANDLE) : MediaInfo :=
  match candidates.find? (qualifies os e object) with
  | some c =>
    { kind := c.kind, path := utf8_to_wide os (e.get_object_item_value object c.effect c.item) }
  | none => { kind := MediaKind.None, path := [] }

/-- The layers `0, 1, ..., max_layer` in increasing order. -/
def layersUpTo (max_layer : Int) : List Int :=
  (List.range (max_layer.toNat + 1)).map Int.ofNat

/-- The layers `layer, layer + 1, ...`, `n` of them. -/
def layersFrom (layer : Int) : Nat → List Int
  | 0 => []
  | n + 1 => layer :: layersFrom (layer + 1) n

/-- Placement order of the scanner: smaller start first, then smaller layer. -/
def lexLE (a b : OBJECT_LAYER_FRAME) : Prop :=
  a.start ≤ b.start ∧ (b.start = a.start → a.layer ≤ b.layer)

/-- Invariant of the scan loop after the layers `seen`: nothing found and all
seen layers empty, or the held object comes from a seen layer and is minimal. -/
def ScanInv (e : EDIT_SECTION) (seen : List Int) (st : ScanState) : Prop :=
  (st.found = false ∧ st.result = none ∧ ∀ l ∈ seen, e.find_object l 0 = none) ∨
  (st.found = true ∧ ∃ r, st.result = some r ∧ st.result_frame = e.get_object_layer_frame r ∧
    (∃ l ∈ seen, e.find_object l 0 = some r) ∧
    ∀ l ∈ seen, ∀ o, e.find_object l 0 = some o →
      lexLE (e.get_object_layer_frame r) (e.get_object_layer_frame o))

/-! ## Sample environments -/

/-- An operating system that converts each byte to one code unit; its decoders
succeed on every call or fail to open the file, and report the size `w × h`. -/
def sampleOS (opens : Bool) (w h : Nat) : OS where
  MultiByteToWideChar := fun t => some t
  wic := fun _ =>
    { coInitApartment := S_OK, coInitMulti := S_OK, createFactory2 := S_OK,
      createFactory1 := S_OK, createDecoder := if opens then S_OK else E_FAIL,
      getFrame := S_OK, getSize := S_OK, w := w, h := h }
  mf := fun _ =>
    { init_result := S_OK, coInitApartment := S_OK, coInitMulti := S_OK,
      createAttributes := S_OK, createSourceReader := if opens then S_OK else E_FAIL,
      getNativeMediaType := S_OK, getCurrentMediaType := S_OK, getAttributeSize := S_OK,
      w := w, h := h }

/-- The bytes of `a.png`. -/
def samplePath : CString := [97, 46, 112, 110, 103]

/-- An edit section with canvas `width × height`, one layer, and one object
(handle 1) at frame 0 of layer 0 whose only parameter is the one candidate
number `slot` of the table names, with value `a.png`. -/
def sampleEdit (width height : Int) (sink : Bool) (slot : Nat) : EDIT_SECTION where
  info := some { width := width, height := height, layer_max := 0 }
  output_log := sink
  find_object := fun layer _ => if layer = 0 then some 1 else none
  get_object_layer_frame := fun _ => {}
  get_object_item_value := fun _ effect item =>
    match candidates.get? slot with
    | some c => if effect = c.effect ∧ item = c.item then some samplePath else none
    | none => none

/-- An edit section with no object on its single layer. -/
def emptyEdit (width height : Int) : EDIT_SECTION where
  info := some { width := width, height := height, layer_max := 0 }
  output_log := true
  find_object := fun _ _ => none
  get_object_layer_frame := fun _ => {}
  get_object_item_value := fun _ _ _ => none

/-- An edit section with three layers: object 10 on layer 0 and object 20 on
layer 2, both starting at frame 5, and nothing on layer 1. -/
def tieEdit : EDIT_SECTION where
  info := some { width := 640, height := 480, layer_max := 2 }
  output_log := true
  find_object := fun layer _ =>
    if layer = 0 then some 10 else if layer = 2 then some 20 else none
  get_object_layer_frame := fun object =>
    if object = 10 then { layer := 0, start := 5 } else { layer := 2, start := 5 }
  get_object_item_value := fun _ _ _ => none

/-- An edit section whose `layer_max` is `INT_MAX`, with object 1 on layer 0
and no other object. -/
def maxEdit : EDIT_SECTION where
  info := some { width := 640, height := 480, layer_max := 2147483647 }
  output_log := true
  find_object := fun layer _ => if layer = 0 then some 1 else none
  get_object_layer_frame := fun _ => {}
  get_object_item_value := fun _ _ _ => none

/-! ## Helper lemmas -/

/-! ### Integer conversions, the scan loop, the candidate loop -/

theorem toInt32_toUInt32 (w : Nat) : toInt32 (toUInt32 w) = toInt32 w := by
  simp [toInt32, toUInt32]

theorem toInt32_pos_iff (w : Nat) : 0 < toInt32 w ↔ (0 < toUInt32 w ∧ toUInt32 w < 2 ^ 31) := by
  unfold toInt32 toUInt32
  have h : w % 2 ^ 32 < 2 ^ 32 := Nat.mod_lt _ (by norm_num)
  split <;> omega

theorem toInt32_ne_zero (w : Nat) (h : toUInt32 w ≠ 0) : toInt32 w ≠ 0 := by
  unfold toInt32; unfold toUInt32 at h
  have h2 : w % 2 ^ 32 < 2 ^ 32 := Nat.mod_lt _ (by norm_num)
  split <;> omega

theorem mem_layers (m : Int) (l : Int) :
    l ∈ layersUpTo m ↔ (0 ≤ l ∧ l ≤ max m 0) := by
  unfold layersUpTo
  simp only [List.mem_map, List.mem_range]
  constructor
  · rintro ⟨n, hn, rfl⟩
    have : (Int.ofNat n) = (n : Int) := rfl
    omega
  · rintro ⟨h0, h1⟩
    refine ⟨l.toNat, by omega, ?_⟩
    have : Int.ofNat l.toNat = ((l.toNat : Nat) : Int) := rfl
    omega

theorem lexLE_refl (a : OBJECT_LAYER_FRAME) : lexLE a a := by
  unfold lexLE; omega

theorem scanInv_body (e : EDIT_SECTION) (seen : List Int) (st : ScanState) (l : Int)
    (h : ScanInv e seen st) : ScanInv e (seen ++ [l]) (find_first_object.body e st l) := by
  unfold find_first_object.body
  cases hobj : e.find_object l 0 with
  | none =>
    simp only
    rcases h with ⟨hf, hr, hall⟩ | ⟨hf, r, hr, hfr, ⟨l0, hl0, hl0r⟩, hmin⟩
    · left
      refine ⟨hf, hr, ?_⟩
      intro l' hl'
      rcases List.mem_append.mp hl' with h1 | h1
      · exact hall l' h1
      · simp at h1; subst h1; exact hobj
    · right
      refine ⟨hf, r, hr, hfr, ⟨l0, List.mem_append_left _ hl0, hl0r⟩, ?_⟩
      intro l' hl' o ho
      rcases List.mem_append.mp hl' with h1 | h1
      · exact hmin l' h1 o ho
      · simp at h1; subst h1; rw [hobj] at ho; cases ho
  | some object =>
    simp only
    rcases h with ⟨hf, hr, hall⟩ | ⟨hf, r, hr, hfr, ⟨l0, hl0, hl0r⟩, hmin⟩
    · right
      simp only [hf, Bool.not_false, Bool.true_or, if_true, true_and]
      refine ⟨object, rfl, rfl, ⟨l, by simp, hobj⟩, ?_⟩
      intro l' hl' o ho
      rcases List.mem_append.mp hl' with h1 | h1
      · rw [hall l' h1] at ho; cases ho
      · simp at h1; subst h1; rw [hobj] at ho; cases ho; exact lexLE_refl _
    · right
      by_cases hc : (!st.found || decide ((e.get_object_layer_frame object).start <
            st.result_frame.start) ||
            (decide ((e.get_object_layer_frame object).start = st.result_frame.start) &&
              decide ((e.get_object_layer_frame object).layer < st.result_frame.layer))) =
            true
      · rw [if_pos hc]
        simp only [hf, Bool.not_true, Bool.false_or, Bool.or_eq_true, Bool.and_eq_true,
          decide_eq_true_eq] at hc
        refine ⟨rfl, object, rfl, rfl, ⟨l, by simp, hobj⟩, ?_⟩
        intro l' hl' o ho
        rcases List.mem_append.mp hl' with h1 | h1
        · have := hmin l' h1 o ho
          rw [← hfr] at this
          unfold lexLE at this ⊢
          omega
        · simp at h1; subst h1; rw [hobj] at ho; cases ho; exact lexLE_refl _
      · rw [if_neg hc]
        simp only [hf, Bool.not_true, Bool.false_or, Bool.or_eq_true, Bool.and_eq_true,
          decide_eq_true_eq] at hc
        refine ⟨hf, r, hr, hfr, ⟨l0, List.mem_append_left _ hl0, hl0r⟩, ?_⟩
        intro l' hl' o ho
        rcases List.mem_append.mp hl' with h1 | h1
        · exact hmin l' h1 o ho
        · simp at h1; subst h1; rw [hobj] at ho; cases ho
          rw [← hfr]
          unfold lexLE
          omega

theorem scanInv_foldl (e : EDIT_SECTION) (ls : List Int) :
    ∀ (seen : List Int) (st : ScanState), ScanInv e seen st →
      ScanInv e (seen ++ ls) (ls.foldl (find_first_object.body e) st) := by
  induction ls with
  | nil => intro seen st h; simpa using h
  | cons l ls ih =>
    intro seen st h
    have := ih (seen ++ [l]) _ (scanInv_body e seen st l h)
    simpa using this

/-- The scan loop started on the empty state satisfies the invariant for all
layers it visited. -/
theorem scanInv_run (e : EDIT_SECTION) (m : Int) :
    ScanInv e (layersUpTo m)
      ((layersUpTo m).foldl (find_first_object.body e) {}) := by
  have h0 : ScanInv e [] ({} : ScanState) := Or.inl ⟨rfl, rfl, by simp⟩
  simpa using scanInv_foldl e (layersUpTo m) [] {} h0

theorem layersFrom_eq_map (n : Nat) :
    ∀ k : Int, layersFrom k n = (List.range n).map fun i : Nat => k + Int.ofNat i := by
  induction n with
  | zero => intro k; rfl
  | succ n ih =>
    intro k
    rw [layersFrom, ih (k + 1), List.range_succ_eq_map]
    simp only [List.map_cons, List.map_map, List.cons.injEq]
    refine ⟨by simp, ?_⟩
    apply List.map_congr_left
    intro i _
    simp only [Function.comp_apply, Int.ofNat_eq_coe, Nat.cast_succ]
    ring

theorem layersFrom_zero (m : Int) : layersFrom 0 (m.toNat + 1) = layersUpTo m := by
  rw [layersFrom_eq_map]
  unfold layersUpTo
  apply List.map_congr_left
  intro i _
  simp

/-- A loop whose bound is below `INT_MAX` exits, given one more test than it
has iterations left, with the locals of the fold of its body over the
remaining layers. -/
theorem loop_eq_foldl (e : EDIT_SECTION) (max_layer : Int) (hmax : max_layer < INT_MAX)
    (n : Nat) :
    ∀ (fuel : Nat) (layer : Int) (st : ScanState), layer + n = max_layer + 1 → n < fuel →
      find_first_object.loop e max_layer fuel layer st =
        some ((layersFrom layer n).foldl (find_first_object.body e) st) := by
  induction n with
  | zero =>
    intro fuel layer st hl hf
    cases fuel with
    | zero => omega
    | succ f =>
      have hgt : ¬ layer ≤ max_layer := by
        simp only [Nat.cast_zero, add_zero] at hl
        omega
      simp [find_first_object.loop, hgt, layersFrom]
  | succ n ih =>
    intro fuel layer st hl hf
    cases fuel with
    | zero => omega
    | succ f =>
      have hle : layer ≤ max_layer := by
        simp only [Nat.cast_succ] at hl
        omega
      have hinc : find_first_object.incr layer = some (layer + 1) := by
        unfold find_first_object.incr
        rw [if_pos (by omega)]
      have hl' : layer + 1 + (n : Int) = max_layer + 1 := by
        simp only [Nat.cast_succ] at hl
        omega
      simp only [find_first_object.loop, hle, if_true, hinc, layersFrom, List.foldl_cons]
      exact ih f (layer + 1) _ hl' (by omega)

/-- A loop whose bound is `INT_MAX` or more does not exit, whatever the number
of tests it is given: its test never fails below `INT_MAX`, and at `INT_MAX`
the increment has no value. -/
theorem loop_hangs (e : EDIT_SECTION) (max_layer : Int) (hmax : INT_MAX ≤ max_layer)
    (fuel : Nat) :
    ∀ (layer : Int) (st : ScanState), layer ≤ INT_MAX →
      find_first_object.loop e max_layer fuel layer st = none := by
  induction fuel with
  | zero => intro layer st _; rfl
  | succ f ih =>
    intro layer st hl
    have hle : layer ≤ max_layer := le_trans hl hmax
    by_cases hlt : layer < INT_MAX
    · have hinc : find_first_object.incr layer = some (layer + 1) := by
        unfold find_first_object.incr
        rw [if_pos hlt]
      simp only [find_first_object.loop, hle, if_true, hinc]
      exact ih (layer + 1) _ (by omega)
    · have hinc : find_first_object.incr layer = none := by
        unfold find_first_object.incr
        rw [if_neg hlt]
      simp only [find_first_object.loop, hle, if_true, hinc]

theorem find_first_object_eq (e : EDIT_SECTION) (info : EDIT_INFO) (h : e.info = some info)
    (hmax : info.layer_max < INT_MAX) :
    find_first_object (some e) =
      some (if info.layer_max < 0 then none
        else ((layersUpTo info.layer_max).foldl (find_first_object.body e) {}).result) := by
  unfold find_first_object
  simp only [h]
  by_cases hneg : info.layer_max < 0
  · simp [hneg]
  · rw [if_neg hneg, if_neg hneg]
    have hl : (0 : Int) + ((info.layer_max.toNat + 1 : Nat) : Int) = info.layer_max + 1 := by
      have := Int.toNat_of_nonneg (not_lt.mp hneg)
      push_cast
      omega
    rw [loop_eq_foldl e info.layer_max hmax (info.layer_max.toNat + 1)
      (info.layer_max.toNat + 2) 0 {} hl (by omega), layersFrom_zero]
    rfl

theorem find_first_object_hangs (e : EDIT_SECTION) (info : EDIT_INFO) (h : e.info = some info)
    (hmax : INT_MAX ≤ info.layer_max) : find_first_object (some e) = none := by
  unfold find_first_object
  simp only [h]
  have hneg : ¬ info.layer_max < 0 := by
    unfold INT_MAX at hmax
    omega
  rw [if_neg hneg, loop_hangs e info.layer_max hmax _ 0 {} (by unfold INT_MAX; omega)]
  rfl

/-- Without an edit section or info the scanner returns `nullptr` at once. -/
theorem find_first_object_no_info (edit : Option EDIT_SECTION)
    (h : edit.bind (fun e => e.info) = none) : find_first_object edit = some none := by
  cases edit with
  | none => rfl
  | some e =>
    have h' : e.info = none := by simpa using h
    simp [find_first_object, h']

theorem extract_loop_eq (os : OS) (e : EDIT_SECTION) (object : OBJECT_HANDLE) :
    ∀ cs : List Candidate, extract_media_info.loop os e object cs =
      match cs.find? (qualifies os e object) with
      | some c =>
        { kind := c.kind,
          path := utf8_to_wide os (e.get_object_item_value object c.effect c.item) }
      | none => { kind := MediaKind.None, path := [] } := by
  intro cs
  induction cs with
  | nil => rfl
  | cons c cs ih =>
    unfold extract_media_info.loop
    cases hv : e.get_object_item_value object c.effect c.item with
    | none =>
      have hq : qualifies os e object c = false := by simp [qualifies, hv]
      simp only [List.find?_cons, hq]
      exact ih
    | some value =>
      by_cases hp : (utf8_to_wide os (some value)).isEmpty = true
      · have hq : qualifies os e object c = false := by simp [qualifies, hv, hp]
        simp only [List.find?_cons, hq, hp, Bool.not_true]
        exact ih
      · have hq : qualifies os e object c = true := by simp [qualifies, hv, hp]
        simp [List.find?_cons, hq, hp, hv]

theorem qualifies_path_ne_nil (os : OS) (e : EDIT_SECTION) (object : OBJECT_HANDLE)
    (c : Candidate) (h : qualifies os e object c = true) :
    utf8_to_wide os (e.get_object_item_value object c.effect c.item) ≠ [] := by
  unfold qualifies at h
  cases hv : e.get_object_item_value object c.effect c.item with
  | none => simp [hv] at h
  | some v =>
    simp only [hv, Bool.not_eq_true', List.isEmpty_eq_false] at h
    exact h

theorem candidate_kind_ne_none (c : Candidate) (h : c ∈ candidates) : c.kind ≠ MediaKind.None := by
  simp only [candidates, List.mem_cons, List.mem_singleton, List.not_mem_nil, or_false] at h
  rcases h with rfl | rfl | rfl | rfl <;> simp

/-- Shape of the extractor's answer: nothing, or the kind and converted path
of a qualifying candidate of the table. -/
theorem extract_media_info_cases (os : OS) (e : EDIT_SECTION) (object : OBJECT_HANDLE) :
    (extract_media_info os (some e) object = { kind := MediaKind.None, path := [] } ∧
      ∀ c ∈ candidates, qualifies os e object c = false) ∨
    (∃ c ∈ candidates, qualifies os e object c = true ∧
      candidates.find? (qualifies os e object) = some c ∧
      extract_media_info os (some e) object =
        { kind := c.kind,
          path := utf8_to_wide os (e.get_object_item_value object c.effect c.item) }) := by
  have h := extract_loop_eq os e object candidates
  unfold extract_media_info
  simp only
  cases hf : candidates.find? (qualifies os e object) with
  | none =>
    left
    rw [hf] at h
    refine ⟨h, ?_⟩
    intro c hc
    have := List.find?_eq_none.mp hf c hc
    simpa using this
  | some c =>
    right
    rw [hf] at h
    exact ⟨c, List.mem_of_find?_eq_some hf, List.find?_some hf, rfl, h⟩

/-- A non-empty extracted path always comes with a media kind. -/
theorem kind_ne_none_of_path_ne_nil (os : OS) (e : EDIT_SECTION) (object : OBJECT_HANDLE)
    (h : (extract_media_info os (some e) object).path ≠ []) :
    (extract_media_info os (some e) object).kind ≠ MediaKind.None := by
  rcases extract_media_info_cases os e object with ⟨heq, _⟩ | ⟨c, hc, _, _, heq⟩
  · rw [heq] at h; exact absurd rfl h
  · rw [heq]; exact candidate_kind_ne_none c hc

/-! ### One invocation, case by case -/

theorem output_log_eq (edit : Option EDIT_SECTION) (m : WString) (hm : m ≠ []) :
    output_log edit m = if hasSink edit then [m] else [] := by
  cases edit with
  | none => rfl
  | some e =>
    cases hs : e.output_log <;> simp [output_log, hasSink, hs, hm]

theorem failureMessage_ne_nil (p : WString) : failureMessage p ≠ [] := by
  unfold failureMessage
  have : L "[auto_aspect] \"" ≠ [] := by decide
  simp [this]

theorem resizeMessage_ne_nil (w h : Int) : resizeMessage w h ≠ [] := by
  unfold resizeMessage
  have : L "[auto_aspect] シーン解像度を " ≠ [] := by decide
  simp [this]

theorem alreadyMessage_ne_nil : alreadyMessage ≠ [] := by decide

/-- With no edit section or no info the invocation returns at once. -/
theorem adjust_no_info (os : OS) (g : Globals) (edit : Option EDIT_SECTION)
    (h : infoOf edit = none) :
    adjust_scene_if_needed os g edit =
      some { ret := false, g := g, info := none, trace := [] } := by
  cases edit with
  | none => rfl
  | some e =>
    have h' : e.info = none := by simpa [infoOf] using h
    simp [adjust_scene_if_needed, h']

/-- After `adjusted` is set and with no reset pending nothing is done. -/
theorem adjust_done (os : OS) (g : Globals) (edit : Option EDIT_SECTION)
    (hadj : g.g_adjusted = true) (hpend : g.g_pending_reset = false) :
    adjust_scene_if_needed os g edit =
      some { ret := false, g := g, info := infoOf edit, trace := [] } := by
  cases edit with
  | none => rfl
  | some e =>
    cases hi : e.info with
    | none => simp [adjust_scene_if_needed, hi, infoOf]
    | some einfo =>
      obtain ⟨p, s, a⟩ := g
      simp only at hadj hpend
      subst hadj hpend
      simp [adjust_scene_if_needed, hi, infoOf]

/-- The flags an armed invocation with an info works with after line 274. -/
theorem armed_cleared (g : Globals) (h : Armed g) :
    (if g.g_pending_reset then
        ({ g_pending_reset := false, g_seen_first_object := false, g_adjusted := false } : Globals)
      else { g with g_pending_reset := false }) =
      { g_pending_reset := false, g_seen_first_object := false, g_adjusted := false } := by
  obtain ⟨p, s, a⟩ := g
  rcases h with h | ⟨h1, h2⟩
  · simp only at h; subst h; rfl
  · simp only at h1 h2; subst h1 h2; cases p <;> rfl

/-- An invocation returns whenever the scanner returns on its edit section. -/
theorem adjust_returns (os : OS) (g : Globals) (edit : Option EDIT_SECTION)
    (h : scanReturns { os := os, edit := edit } = true) :
    (adjust_scene_if_needed os g edit).isSome = true := by
  unfold scanReturns at h
  simp only at h
  cases edit with
  | none => rfl
  | some e =>
    cases hi : e.info with
    | none => simp [adjust_scene_if_needed, hi]
    | some einfo =>
      cases hf : find_first_object (some e) with
      | none => rw [hf] at h; cases h
      | some r =>
        unfold adjust_scene_if_needed
        simp only [hi, hf]
        cases r with
        | none => simp only; split_ifs <;> rfl
        | some obj =>
          rcases hp : probeDimensions os (extract_media_info os (some e) obj).kind
            (extract_media_info os (some e) obj).path with ⟨ok, w, hh⟩
          simp only [hp]
          split_ifs <;> rfl

/-- An armed invocation that returns and whose timeline shows no media-bearing
first object. -/
theorem adjust_armed_no_media (os : OS) (g : Globals) (edit : Option EDIT_SECTION)
    (harmed : Armed g) (hno : findsMedia { os := os, edit := edit } = false)
    (o : Outcome) (ho : adjust_scene_if_needed os g edit = some o) :
    o.ret = false ∧ o.info = infoOf edit ∧ o.logs = [] ∧ o.writes = [] ∧
    ((infoOf edit).isSome = true → o.g =
      { g_pending_reset := false, g_seen_first_object := false, g_adjusted := false }) ∧
    ((infoOf edit) = none → o.g = g) := by
  cases edit with
  | none =>
    simp only [adjust_scene_if_needed, Option.some.injEq] at ho
    subst ho
    simp [infoOf, Outcome.logs, Outcome.writes]
  | some e =>
    cases hi : e.info with
    | none =>
      simp only [adjust_scene_if_needed, hi, Option.some.injEq] at ho
      subst ho
      simp [hi, infoOf, Outcome.logs, Outcome.writes]
    | some einfo =>
      have hc := armed_cleared g harmed
      unfold findsMedia at hno
      simp only at hno
      unfold adjust_scene_if_needed at ho
      simp only [hi, hc] at ho
      cases hf : find_first_object (some e) with
      | none => rw [hf] at ho; simp at ho
      | some r =>
        rw [hf] at ho hno
        cases r with
        | none =>
          simp only [Bool.false_eq_true, if_false, Option.some.injEq] at ho
          subst ho
          simp [infoOf, hi, Outcome.logs, Outcome.writes]
        | some obj =>
          simp only [Bool.not_eq_false'] at hno
          simp only [Bool.false_eq_true, if_false, hno, if_true, Option.some.injEq] at ho
          subst ho
          simp [infoOf, hi, Outcome.logs, Outcome.writes]

/-- Once the first media object was seen and no reset is pending, an
invocation that returns changes nothing and logs nothing. -/
theorem adjust_latched (os : OS) (g : Globals) (edit : Option EDIT_SECTION)
    (hpend : g.g_pending_reset = false) (hseen : g.g_seen_first_object = true)
    (o : Outcome) (ho : adjust_scene_if_needed os g edit = some o) :
    o.ret = false ∧ o.g = g ∧ o.info = infoOf edit ∧ o.logs = [] ∧ o.writes = [] := by
  cases edit with
  | none =>
    simp only [adjust_scene_if_needed, Option.some.injEq] at ho
    subst ho
    simp [infoOf, Outcome.logs, Outcome.writes]
  | some e =>
    cases hi : e.info with
    | none =>
      simp only [adjust_scene_if_needed, hi, Option.some.injEq] at ho
      subst ho
      simp [hi, infoOf, Outcome.logs, Outcome.writes]
    | some einfo =>
      obtain ⟨p, s, a⟩ := g
      simp only at hpend hseen
      subst hpend hseen
      unfold adjust_scene_if_needed at ho
      simp only [hi] at ho
      cases a
      · cases hf : find_first_object (some e) with
        | none => rw [hf] at ho; simp at ho
        | some r =>
          rw [hf] at ho
          cases r with
          | none =>
            simp only [Bool.false_eq_true, if_false, Option.some.injEq] at ho
            subst ho
            simp [infoOf, hi, Outcome.logs, Outcome.writes]
          | some obj =>
            by_cases hk : ((extract_media_info os (some e) obj).kind = MediaKind.None ||
                (extract_media_info os (some e) obj).path.isEmpty) = true
            · simp only [Bool.false_eq_true, if_false, hk, if_true, Option.some.injEq] at ho
              subst ho
              simp [infoOf, hi, Outcome.logs, Outcome.writes]
            · simp only [Bool.false_eq_true, if_false, hk, Bool.not_true, Bool.not_false,
                if_true, Option.some.injEq] at ho
              subst ho
              simp [infoOf, hi, Outcome.logs, Outcome.writes]
      · cases ho
        simp [infoOf, hi, Outcome.logs, Outcome.writes]

/-- The first-media step: an armed invocation whose first object carries media
sets the seen flag, probes once, and then takes one of the three branches. -/
theorem adjust_armed_media (os : OS) (g : Globals) (e : EDIT_SECTION) (einfo : EDIT_INFO)
    (obj : OBJECT_HANDLE) (ok : Bool) (w h : Int)
    (hinfo : e.info = some einfo) (harmed : Armed g)
    (hobj : find_first_object (some e) = some (some obj))
    (hkind : (extract_media_info os (some e) obj).kind ≠ MediaKind.None)
    (hpath : (extract_media_info os (some e) obj).path ≠ [])
    (hprobe : probeDimensions os (extract_media_info os (some e) obj).kind
      (extract_media_info os (some e) obj).path = (ok, w, h)) :
    adjust_scene_if_needed os g (some e) = some (
      if ok = false ∨ w ≤ 0 ∨ h ≤ 0 then
        { ret := false,
          g := { g_pending_reset := false, g_seen_first_object := true, g_adjusted := false },
          info := some einfo,
          trace := [Effect.scan, Effect.extract obj,
              Effect.probe (extract_media_info os (some e) obj).kind
                (extract_media_info os (some e) obj).path] ++
            (if e.output_log then
              [Effect.log (failureMessage (extract_media_info os (some e) obj).path)]
             else []) }
      else if einfo.width ≠ w ∨ einfo.height ≠ h then
        { ret := true,
          g := { g_pending_reset := false, g_seen_first_object := true, g_adjusted := true },
          info := some { einfo with width := w, height := h },
          trace := [Effect.scan, Effect.extract obj,
              Effect.probe (extract_media_info os (some e) obj).kind
                (extract_media_info os (some e) obj).path, Effect.setSize w h] ++
            (if e.output_log then [Effect.log (resizeMessage w h)] else []) }
      else
        { ret := true,
          g := { g_pending_reset := false, g_seen_first_object := true, g_adjusted := true },
          info := some einfo,
          trace := [Effect.scan, Effect.extract obj,
              Effect.probe (extract_media_info os (some e) obj).kind
                (extract_media_info os (some e) obj).path] ++
            (if e.output_log then [Effect.log alreadyMessage] else []) }) := by
  have hc := armed_cleared g harmed
  have hk : ((extract_media_info os (some e) obj).kind = MediaKind.None ||
      (extract_media_info os (some e) obj).path.isEmpty) = false := by
    simp [hkind, hpath]
  have hl1 := output_log_eq (some e) _ (failureMessage_ne_nil
    (extract_media_info os (some e) obj).path)
  have hl2 := output_log_eq (some e) _ (resizeMessage_ne_nil w h)
  have hl3 := output_log_eq (some e) _ alreadyMessage_ne_nil
  simp only [hasSink] at hl1 hl2 hl3
  unfold adjust_scene_if_needed
  simp only [hinfo, hc, hobj, hk, hprobe, hl1, hl2, hl3]
  by_cases hf : ok = false ∨ w ≤ 0 ∨ h ≤ 0
  · have hf' : (!ok || decide (w ≤ 0) || decide (h ≤ 0)) = true := by
      rcases hf with h1 | h1 | h1 <;> simp [h1]
    rw [if_pos hf]
    rcases Bool.eq_false_or_eq_true e.output_log with hs | hs <;> simp [hf', hs]
  · have hf' : (!ok || decide (w ≤ 0) || decide (h ≤ 0)) = false := by
      simp only [not_or] at hf
      obtain ⟨h1, h2, h3⟩ := hf
      simp [h1, h2, h3]
    rw [if_neg hf]
    by_cases hd : einfo.width ≠ w ∨ einfo.height ≠ h
    · have hd' : (einfo.width ≠ w || einfo.height ≠ h) = true := by
        rcases hd with h1 | h1 <;> simp [h1]
      rw [if_pos hd]
      rcases Bool.eq_false_or_eq_true e.output_log with hs | hs <;>
        simp only [hf', hd', hs] <;> simp
    · have hd' : (einfo.width ≠ w || einfo.height ≠ h) = false := by
        simp only [not_or, not_not] at hd
        simp [hd.1, hd.2]
      rw [if_neg hd]
      rcases Bool.eq_false_or_eq_true e.output_log with hs | hs <;>
        simp only [hf', hd', hs] <;> simp

/-! ## The probes (C9) -/

/-- C9 (as amended): for every outcome of the underlying decoder, each probe
reports success only when the decoder's size call succeeded with a non-zero
unsigned width and height; the `int` outputs are then the wrap-around
conversions of these values, both non-zero, and positive exactly when the
unsigned value is below 2^31. Whenever the probe fails, in particular whenever
the decoder fails or reports zero in either dimension, the outputs keep the
values they had before the call. -/
theorem probe_success_iff_decoder_nonzero (os : OS) (path : WString) (width height : Int) :
    ((get_image_dimensions os path width height).1 = true →
        FAILED (os.wic path).getSize = false ∧
        toUInt32 (os.wic path).w ≠ 0 ∧ toUInt32 (os.wic path).h ≠ 0 ∧
        (get_image_dimensions os path width height).2 =
          (toInt32 (os.wic path).w, toInt32 (os.wic path).h) ∧
        toInt32 (os.wic path).w ≠ 0 ∧ toInt32 (os.wic path).h ≠ 0 ∧
        (0 < toInt32 (os.wic path).w ↔ toUInt32 (os.wic path).w < 2 ^ 31) ∧
        (0 < toInt32 (os.wic path).h ↔ toUInt32 (os.wic path).h < 2 ^ 31)) ∧
    ((get_image_dimensions os path width height).1 = false →
        get_image_dimensions os path width height = (false, width, height)) ∧
    ((FAILED (os.wic path).getSize = true ∨ toUInt32 (os.wic path).w = 0 ∨
        toUInt32 (os.wic path).h = 0) →
        get_image_dimensions os path width height = (false, width, height)) ∧
    ((get_video_dimensions os path width height).1 = true →
        FAILED (os.mf path).getAttributeSize = false ∧
        toUInt32 (os.mf path).w ≠ 0 ∧ toUInt32 (os.mf path).h ≠ 0 ∧
        (get_video_dimensions os path width height).2 =
          (toInt32 (os.mf path).w, toInt32 (os.mf path).h) ∧
        toInt32 (os.mf path).w ≠ 0 ∧ toInt32 (os.mf path).h ≠ 0 ∧
        (0 < toInt32 (os.mf path).w ↔ toUInt32 (os.mf path).w < 2 ^ 31) ∧
        (0 < toInt32 (os.mf path).h ↔ toUInt32 (os.mf path).h < 2 ^ 31)) ∧
    ((get_video_dimensions os path width height).1 = false →
        get_video_dimensions os path width height = (false, width, height)) ∧
    ((FAILED (os.mf path).getAttributeSize = true ∨ toUInt32 (os.mf path).w = 0 ∨
        toUInt32 (os.mf path).h = 0) →
        get_video_dimensions os path width height = (false, width, height)) := by
  have key : ∀ w : Nat, toUInt32 w ≠ 0 →
      toInt32 w ≠ 0 ∧ (0 < toInt32 w ↔ toUInt32 w < 2 ^ 31) := by
    intro w hw
    refine ⟨toInt32_ne_zero w hw, ?_⟩
    rw [toInt32_pos_iff]
    constructor
    · exact fun h => h.2
    · exact fun h => ⟨Nat.pos_of_ne_zero hw, h⟩
  refine ⟨?_, ?_, ?_, ?_, ?_, ?_⟩
  · intro h
    unfold get_image_dimensions at h ⊢
    simp only at h ⊢
    split_ifs at h ⊢ with h1 h2 h3 h4 h5
    simp only [Bool.or_eq_true, beq_iff_eq, not_or] at h5
    obtain ⟨⟨h5a, h5b⟩, h5c⟩ := h5
    refine ⟨by simpa using h5a, h5b, h5c, ?_, (key _ h5b).1, (key _ h5c).1, (key _ h5b).2,
      (key _ h5c).2⟩
    simp [toInt32_toUInt32]
  · intro h
    unfold get_image_dimensions at h ⊢
    simp only at h ⊢
    split_ifs at h ⊢ with h1 h2 h3 h4 h5
    all_goals rfl
  · intro h
    unfold get_image_dimensions
    simp only
    have h5 : (FAILED (os.wic path).getSize || toUInt32 (os.wic path).w == 0 ||
        toUInt32 (os.wic path).h == 0) = true := by
      rcases h with h | h | h <;> simp [h]
    split_ifs <;> rfl
  · intro h
    unfold get_video_dimensions at h ⊢
    simp only at h ⊢
    split_ifs at h ⊢ with h0 h1 h2 h3 h4 h5
    simp only [Bool.or_eq_true, beq_iff_eq, not_or] at h5
    obtain ⟨⟨h5a, h5b⟩, h5c⟩ := h5
    refine ⟨by simpa using h5a, h5b, h5c, ?_, (key _ h5b).1, (key _ h5c).1, (key _ h5b).2,
      (key _ h5c).2⟩
    simp [toInt32_toUInt32]
  · intro h
    unfold get_video_dimensions at h ⊢
    simp only at h ⊢
    split_ifs at h ⊢ with h0 h1 h2 h3 h4 h5
    all_goals rfl
  · intro h
    unfold get_video_dimensions
    simp only
    have h5 : (FAILED (os.mf path).getAttributeSize || toUInt32 (os.mf path).w == 0 ||
        toUInt32 (os.mf path).h == 0) = true := by
      rcases h with h | h | h <;> simp [h]
    split_ifs <;> rfl

/-- C9 (counterexample): a decoder that succeeds with the unsigned width 2^31
and height 1 makes both probes report success with the width -2147483648. -/
theorem probe_success_with_negative_width :
    get_image_dimensions (sampleOS true 2147483648 1) [97] 0 0 = (true, -2147483648, 1) ∧
    get_video_dimensions (sampleOS true 2147483648 1) [97] 0 0 = (true, -2147483648, 1) := by
  decide

/-! ## The extractor (C7) -/

/-- C7: for every object and host parameter lookup, `extract_media_info` walks
the table in its fixed order (the two video names, then the two image names),
skips every entry whose value is absent or converts to an empty path, and
returns the kind and converted path of the first entry that qualifies; it
returns kind `None` with an empty path exactly when no entry qualifies. A
qualifying video entry wins over any image entry, and a kind other than `None`
always comes with a non-empty path. -/
theorem extract_media_info_first_match (os : OS) (e : EDIT_SECTION) (object : OBJECT_HANDLE) :
    candidates.map (fun c => (c.effect, c.item, c.kind)) =
      [ (L "動画ファイル", L "ファイル", MediaKind.Video),
        (L "VideoFile", L "File", MediaKind.Video),
        (L "画像ファイル", L "ファイル", MediaKind.Image),
        (L "ImageFile", L "File", MediaKind.Image) ] ∧
    extract_media_info os (some e) object = specExtract os e object ∧
    (∀ (skipped : List Candidate) (c : Candidate) (rest : List Candidate),
      candidates = skipped ++ c :: rest →
      (∀ a ∈ skipped, qualifies os e object a = false) →
      qualifies os e object c = true →
      extract_media_info os (some e) object =
        { kind := c.kind,
          path := utf8_to_wide os (e.get_object_item_value object c.effect c.item) }) ∧
    (((extract_media_info os (some e) object).kind = MediaKind.None ∧
        (extract_media_info os (some e) object).path = []) ↔
      ∀ c ∈ candidates, qualifies os e object c = false) ∧
    ((extract_media_info os (some e) object).kind = MediaKind.None ↔
      ∀ c ∈ candidates, qualifies os e object c = false) ∧
    ((extract_media_info os (some e) object).kind ≠ MediaKind.None →
      (extract_media_info os (some e) object).path ≠ []) ∧
    (∀ c ∈ candidates, c.kind = MediaKind.Video → qualifies os e object c = true →
      (extract_media_info os (some e) object).kind = MediaKind.Video) := by
  have hloop := extract_loop_eq os e object candidates
  have hcases := extract_media_info_cases os e object
  refine ⟨rfl, ?_, ?_, ?_, ?_, ?_, ?_⟩
  · unfold extract_media_info specExtract
    exact hloop
  · intro skipped c rest hsplit hskip hq
    have hfind : candidates.find? (qualifies os e object) = some c := by
      rw [List.find?_eq_some]
      exact ⟨hq, skipped, rest, hsplit, fun a ha => by simp [hskip a ha]⟩
    unfold extract_media_info
    simp only
    rw [hloop, hfind]
  · rcases hcases with ⟨heq, hall⟩ | ⟨c, hc, hq, _, heq⟩
    · rw [heq]; simp; exact hall
    · rw [heq]
      constructor
      · rintro ⟨hk, _⟩; exact absurd hk (candidate_kind_ne_none c hc)
      · intro hall; rw [hall c hc] at hq; cases hq
  · rcases hcases with ⟨heq, hall⟩ | ⟨c, hc, hq, _, heq⟩
    · rw [heq]; simp; exact hall
    · rw [heq]
      constructor
      · intro hk; exact absurd hk (candidate_kind_ne_none c hc)
      · intro hall; rw [hall c hc] at hq; cases hq
  · rcases hcases with ⟨heq, _⟩ | ⟨c, _, hq, _, heq⟩
    · rw [heq]; simp
    · rw [heq]; intro _; exact qualifies_path_ne_nil os e object c hq
  · intro c hc hvideo hq
    have hspec : extract_media_info os (some e) object = specExtract os e object := by
      unfold extract_media_info specExtract
      exact hloop
    rw [hspec]
    unfold specExtract
    simp only [candidates, List.mem_cons, List.mem_singleton, List.not_mem_nil, or_false] at hc ⊢
    rcases hc with rfl | rfl | rfl | rfl
    · rw [List.find?_cons_of_pos _ hq]
    · cases h0 : qualifies os e object
          { effect := L "動画ファイル", item := L "ファイル", kind := MediaKind.Video }
      · rw [List.find?_cons_of_neg _ (by simp [h0]), List.find?_cons_of_pos _ hq]
      · rw [List.find?_cons_of_pos _ h0]
    · cases hvideo
    · cases hvideo

/-! ## The scanner (C6) -/

/-- C6 (as amended): `find_first_object` returns exactly when `layer_max` is
below `INT_MAX` (or there is no info); at `layer_max = INT_MAX` its loop does
not exit whatever the number of tests, because the test `layer <= max_layer`
cannot fail and `++layer` has no value at `INT_MAX`. For
`0 <= layer_max < INT_MAX` what it returns is an object the host reports at
frame 0 of some layer in `0..layer_max`, and its (start, layer) placement is
lexicographically smallest among all such per-layer objects: none has a
smaller start, none with the same start a smaller layer. It returns `nullptr`
exactly when no layer of that range has an object, hence also when
`layer_max < 0`. With exactly two candidates of equal start, on layers 0 and
2, it returns the layer-0 object. -/
theorem find_first_object_lex_min (e : EDIT_SECTION) (info : EDIT_INFO)
    (hinfo : e.info = some info) :
    ((find_first_object (some e)).isSome = true ↔ info.layer_max < INT_MAX) ∧
    (INT_MAX ≤ info.layer_max →
      ∀ (fuel : Nat) (st : ScanState),
        find_first_object.loop e info.layer_max fuel 0 st = none) ∧
    (∀ r, find_first_object (some e) = some (some r) →
      (0 ≤ info.layer_max ∧ info.layer_max < INT_MAX) ∧
      (∃ l, 0 ≤ l ∧ l ≤ info.layer_max ∧ e.find_object l 0 = some r) ∧
      ∀ l o, 0 ≤ l → l ≤ info.layer_max → e.find_object l 0 = some o →
        (e.get_object_layer_frame r).start ≤ (e.get_object_layer_frame o).start ∧
        ((e.get_object_layer_frame o).start = (e.get_object_layer_frame r).start →
          (e.get_object_layer_frame r).layer ≤ (e.get_object_layer_frame o).layer)) ∧
    (find_first_object (some e) = some none ↔
      (info.layer_max < INT_MAX ∧
        ∀ l, 0 ≤ l → l ≤ info.layer_max → e.find_object l 0 = none)) ∧
    (info.layer_max < 0 → find_first_object (some e) = some none) ∧
    (∀ a b s, 2 ≤ info.layer_max → info.layer_max < INT_MAX →
      (∀ l, e.find_object l 0 = if l = 0 then some a else if l = 2 then some b else none) →
      e.get_object_layer_frame a = { layer := 0, start := s } →
      e.get_object_layer_frame b = { layer := 2, start := s } →
      find_first_object (some e) = some (some a)) := by
  have hinv := scanInv_run e info.layer_max
  have hret : (find_first_object (some e)).isSome = true ↔ info.layer_max < INT_MAX := by
    by_cases hmax : info.layer_max < INT_MAX
    · rw [find_first_object_eq e info hinfo hmax]
      simp [hmax]
    · rw [find_first_object_hangs e info hinfo (not_lt.mp hmax)]
      simp [hmax]
  have main : ∀ r, find_first_object (some e) = some (some r) →
      (0 ≤ info.layer_max ∧ info.layer_max < INT_MAX) ∧
      (∃ l, 0 ≤ l ∧ l ≤ info.layer_max ∧ e.find_object l 0 = some r) ∧
      ∀ l o, 0 ≤ l → l ≤ info.layer_max → e.find_object l 0 = some o →
        lexLE (e.get_object_layer_frame r) (e.get_object_layer_frame o) := by
    intro r hr
    have hmax : info.layer_max < INT_MAX := hret.mp (by rw [hr]; rfl)
    rw [find_first_object_eq e info hinfo hmax] at hr
    by_cases hneg : info.layer_max < 0
    · simp [hneg] at hr
    · rw [if_neg hneg] at hr
      have hm : max info.layer_max 0 = info.layer_max := by omega
      rcases hinv with ⟨_, hnone, _⟩ | ⟨_, r', hres, _, ⟨l0, hl0, hl0r⟩, hmin⟩
      · rw [hnone] at hr; cases hr
      · rw [hres] at hr
        cases hr
        rw [mem_layers, hm] at hl0
        refine ⟨⟨by omega, hmax⟩, ⟨l0, hl0.1, hl0.2, hl0r⟩, ?_⟩
        intro l o h0 h1 ho
        exact hmin l ((mem_layers _ _).mpr ⟨h0, by omega⟩) o ho
  have hnone : find_first_object (some e) = some none ↔
      (info.layer_max < INT_MAX ∧
        ∀ l, 0 ≤ l → l ≤ info.layer_max → e.find_object l 0 = none) := by
    by_cases hmax : info.layer_max < INT_MAX
    · rw [find_first_object_eq e info hinfo hmax]
      simp only [hmax, true_and, Option.some.injEq]
      by_cases hneg : info.layer_max < 0
      · simp only [hneg, if_true, true_iff]
        intro l h0 h1
        omega
      · rw [if_neg hneg]
        have hm : max info.layer_max 0 = info.layer_max := by omega
        rcases hinv with ⟨_, hres, hall⟩ | ⟨_, r', hres, _, ⟨l0, hl0, hl0r⟩, _⟩
        · simp only [hres, true_iff]
          intro l h0 h1
          exact hall l ((mem_layers _ _).mpr ⟨h0, by omega⟩)
        · rw [hres]
          rw [mem_layers, hm] at hl0
          constructor
          · intro h; cases h
          · intro hall
            have := hall l0 hl0.1 hl0.2
            rw [hl0r] at this
            cases this
    · rw [find_first_object_hangs e info hinfo (not_lt.mp hmax)]
      constructor
      · intro h; cases h
      · intro h; exact absurd h.1 hmax
  refine ⟨hret, ?_, main, hnone, ?_, ?_⟩
  · intro hmax fuel st
    exact loop_hangs e info.layer_max hmax fuel 0 st (by unfold INT_MAX; omega)
  · intro hneg
    have hmax : info.layer_max < INT_MAX := by unfold INT_MAX; omega
    rw [find_first_object_eq e info hinfo hmax, if_pos hneg]
  · intro a b s hlo hmax hfind hfa hfb
    have hsome := hret.mpr hmax
    cases hres : find_first_object (some e) with
    | none => rw [hres] at hsome; cases hsome
    | some r? =>
      cases r? with
      | none =>
        have := (hnone.mp hres).2 0 (le_refl _) (by omega)
        rw [hfind 0] at this
        simp at this
      | some r =>
        obtain ⟨_, ⟨l, hl0, hl1, hlr⟩, hmin⟩ := main r hres
        rw [hfind l] at hlr
        split_ifs at hlr with h0 h2
        · rw [hlr]
        · cases hlr
          have h := hmin 0 a (le_refl _) (by omega) (by rw [hfind 0]; simp)
          rw [hfa, hfb] at h
          unfold lexLE at h
          simp at h

/-- C6 (witness): on `tieEdit` (objects 10 and 20 on layers 0 and 2, both
starting at frame 5) the scanner returns object 10. -/
theorem find_first_object_lex_min_witness :
    tieEdit.info = some { width := 640, height := 480, layer_max := 2 } ∧
    find_first_object (some tieEdit) = some (some 10) :=
  ⟨rfl, (find_first_object_lex_min tieEdit { width := 640, height := 480, layer_max := 2 }
    rfl).2.2.2.2.2 10 20 5 (by decide) (by decide) (fun _ => rfl) rfl rfl⟩

/-- C6 (counterexample): on `maxEdit`, whose `layer_max` is 2147483647 and
whose layer 0 holds object 1, the scanner does not return, for any number of
tests given to its loop. -/
theorem find_first_object_hangs_at_int_max :
    maxEdit.info = some { width := 640, height := 480, layer_max := 2147483647 } ∧
    maxEdit.find_object 0 0 = some 1 ∧
    find_first_object (some maxEdit) = none ∧
    ∀ fuel : Nat, find_first_object.loop maxEdit 2147483647 fuel 0 {} = none :=
  ⟨rfl, rfl,
    find_first_object_hangs maxEdit { width := 640, height := 480, layer_max := 2147483647 }
      rfl (by decide),
    fun fuel => loop_hangs maxEdit 2147483647 (by decide) fuel 0 {} (by decide)⟩

/-! ### Sequences of invocations -/

theorem findsMedia_iff (os : OS) (edit : Option EDIT_SECTION) :
    findsMedia { os := os, edit := edit } = true ↔
      ∃ e einfo obj, edit = some e ∧ e.info = some einfo ∧
        find_first_object (some e) = some (some obj) ∧
        (extract_media_info os (some e) obj).kind ≠ MediaKind.None ∧
        (extract_media_info os (some e) obj).path ≠ [] := by
  unfold findsMedia
  simp only
  cases edit with
  | none => simp [find_first_object]
  | some e =>
    cases hi : e.info with
    | none => simp [find_first_object, hi]
    | some einfo =>
      cases ho : find_first_object (some e) with
      | none => simp [ho]
      | some r =>
        cases r with
        | none => simp [ho]
        | some obj => simp [hi, ho]

theorem findsMedia_scanReturns (t : Tick) (h : findsMedia t = true) : scanReturns t = true := by
  unfold findsMedia at h
  unfold scanReturns
  cases hf : find_first_object t.edit with
  | none => rw [hf] at h; cases h
  | some r => rfl

theorem noMedia_spec (t : Tick) (h : noMedia t = true) :
    findsMedia t = false ∧ scanReturns t = true := by
  unfold noMedia at h
  unfold findsMedia scanReturns
  cases hf : find_first_object t.edit with
  | none => rw [hf] at h; cases h
  | some r =>
    rw [hf] at h
    cases r with
    | none => exact ⟨rfl, rfl⟩
    | some obj =>
      simp only at h
      simp only [h, Bool.not_true, Option.isSome_some, and_self]

theorem runTicks_cons (g : Globals) (t : Tick) (ts : List Tick) :
    runTicks g (t :: ts) =
      match adjust_scene_if_needed t.os g t.edit with
      | none => none
      | some o => (runTicks o.g ts).map fun os => o :: os := rfl

theorem finalGlobals_cons (g : Globals) (t : Tick) (ts : List Tick) :
    finalGlobals g (t :: ts) =
      match adjust_scene_if_needed t.os g t.edit with
      | none => none
      | some o => finalGlobals o.g ts := rfl

theorem runTicks_cons_some (g : Globals) (t : Tick) (ts : List Tick) (os : List Outcome) :
    runTicks g (t :: ts) = some os ↔
      ∃ o rest, adjust_scene_if_needed t.os g t.edit = some o ∧
        runTicks o.g ts = some rest ∧ os = o :: rest := by
  rw [runTicks_cons]
  constructor
  · intro h
    cases ha : adjust_scene_if_needed t.os g t.edit with
    | none => rw [ha] at h; cases h
    | some o =>
      rw [ha] at h
      simp only at h
      cases hr : runTicks o.g ts with
      | none => rw [hr] at h; cases h
      | some rest =>
        rw [hr] at h
        simp only [Option.map_some', Option.some.injEq] at h
        exact ⟨o, rest, rfl, hr, h.symm⟩
  · rintro ⟨o, rest, ho, hr, rfl⟩
    rw [ho]
    simp only [hr, Option.map_some']

theorem finalGlobals_cons_some (g : Globals) (t : Tick) (ts : List Tick) (gf : Globals) :
    finalGlobals g (t :: ts) = some gf ↔
      ∃ o, adjust_scene_if_needed t.os g t.edit = some o ∧ finalGlobals o.g ts = some gf := by
  rw [finalGlobals_cons]
  cases ha : adjust_scene_if_needed t.os g t.edit with
  | none => simp
  | some o => simp

/-- A run of a concatenation completes exactly when the first part completes
and the second part completes from the flags the first part leaves. -/
theorem runTicks_append_some (a b : List Tick) :
    ∀ (g : Globals) (os : List Outcome), runTicks g (a ++ b) = some os ↔
      ∃ oa gf ob, runTicks g a = some oa ∧ finalGlobals g a = some gf ∧
        runTicks gf b = some ob ∧ os = oa ++ ob := by
  induction a with
  | nil =>
    intro g os
    simp only [List.nil_append, runTicks, finalGlobals, Option.some.injEq]
    constructor
    · intro h; exact ⟨[], g, os, rfl, rfl, h, rfl⟩
    · rintro ⟨oa, gf, ob, rfl, rfl, h, rfl⟩; exact h
  | cons t ts ih =>
    intro g os
    rw [List.cons_append, runTicks_cons_some]
    constructor
    · rintro ⟨o, rest, ho, hrest, rfl⟩
      obtain ⟨oa, gf, ob, h1, h2, h3, rfl⟩ := (ih o.g rest).mp hrest
      refine ⟨o :: oa, gf, ob, ?_, ?_, h3, rfl⟩
      · exact (runTicks_cons_some g t ts _).mpr ⟨o, oa, ho, h1, rfl⟩
      · exact (finalGlobals_cons_some g t ts gf).mpr ⟨o, ho, h2⟩
    · rintro ⟨oa, gf, ob, h1, h2, h3, rfl⟩
      obtain ⟨o, rest, ho, hrest, rfl⟩ := (runTicks_cons_some g t ts oa).mp h1
      obtain ⟨o', ho', hgf⟩ := (finalGlobals_cons_some g t ts gf).mp h2
      rw [ho] at ho'
      cases ho'
      exact ⟨o, rest ++ ob, ho, (ih o.g _).mpr ⟨rest, gf, ob, hrest, hgf, h3, rfl⟩, rfl⟩

/-- A run completes when the scanner returns on each of its ticks. -/
theorem runTicks_returns (ts : List Tick) :
    ∀ g : Globals, (∀ t ∈ ts, scanReturns t = true) →
      (runTicks g ts).isSome = true ∧ (finalGlobals g ts).isSome = true := by
  induction ts with
  | nil => intro g _; exact ⟨rfl, rfl⟩
  | cons t ts ih =>
    intro g h
    have hr := adjust_returns t.os g t.edit (h t (List.mem_cons_self _ _))
    obtain ⟨o, ho⟩ := Option.isSome_iff_exists.mp hr
    obtain ⟨h1, h2⟩ := ih o.g (fun t' ht' => h t' (List.mem_cons_of_mem _ ht'))
    rw [runTicks_cons, finalGlobals_cons]
    simp only [ho]
    exact ⟨by simpa using h1, h2⟩

theorem finalGlobals_of_runTicks (ts : List Tick) :
    ∀ (g : Globals) (os : List Outcome), runTicks g ts = some os →
      ∃ gf, finalGlobals g ts = some gf := by
  induction ts with
  | nil => intro g os _; exact ⟨g, rfl⟩
  | cons t ts ih =>
    intro g os h
    obtain ⟨o, rest, ho, hrest, _⟩ := (runTicks_cons_some g t ts os).mp h
    obtain ⟨gf, hgf⟩ := ih o.g rest hrest
    exact ⟨gf, (finalGlobals_cons_some g t ts gf).mpr ⟨o, ho, hgf⟩⟩

/-- After the first media object was seen and while no reset is requested, no
sequence of invocations changes the flags, logs or writes anything. -/
theorem runTicks_latched (g : Globals) (hpend : g.g_pending_reset = false)
    (hseen : g.g_seen_first_object = true) (ts : List Tick) :
    ∀ os : List Outcome, runTicks g ts = some os →
      finalGlobals g ts = some g ∧
      List.Forall₂ (fun t o => o.ret = false ∧ o.g = g ∧ o.info = infoOf t.edit ∧
        o.logs = [] ∧ o.writes = []) ts os := by
  induction ts with
  | nil =>
    intro os h
    simp only [runTicks, Option.some.injEq] at h
    subst h
    exact ⟨rfl, List.Forall₂.nil⟩
  | cons t ts ih =>
    intro os h
    obtain ⟨o, rest, ho, hrest, rfl⟩ := (runTicks_cons_some g t ts os).mp h
    obtain ⟨h1, h2, h3, h4, h5⟩ := adjust_latched t.os g t.edit hpend hseen o ho
    rw [h2] at hrest
    obtain ⟨hf, hall⟩ := ih rest hrest
    refine ⟨(finalGlobals_cons_some g t ts g).mpr ⟨o, ho, by rw [h2]; exact hf⟩, ?_⟩
    exact List.Forall₂.cons ⟨h1, h2, h3, h4, h5⟩ hall

/-- While armed and while no timeline shows a media-bearing first object, the
flags stay armed and nothing is logged or written. -/
theorem runTicks_armed_no_media (ts : List Tick) :
    ∀ (g : Globals) (os : List Outcome), Armed g → (∀ t ∈ ts, findsMedia t = false) →
    runTicks g ts = some os →
    (∃ gf, finalGlobals g ts = some gf ∧ Armed gf) ∧
    List.Forall₂ (fun t o => o.ret = false ∧ o.info = infoOf t.edit ∧
      o.logs = [] ∧ o.writes = [] ∧ Armed o.g) ts os := by
  induction ts with
  | nil =>
    intro g os hg _ h
    simp only [runTicks, Option.some.injEq] at h
    subst h
    exact ⟨⟨g, rfl, hg⟩, List.Forall₂.nil⟩
  | cons t ts ih =>
    intro g os hg hno h
    obtain ⟨o, rest, ho, hrest, rfl⟩ := (runTicks_cons_some g t ts os).mp h
    obtain ⟨h1, h2, h3, h4, h5, h6⟩ :=
      adjust_armed_no_media t.os g t.edit hg (hno t (List.mem_cons_self _ _)) o ho
    have harmed : Armed o.g := by
      cases hi : infoOf t.edit with
      | none => rw [h6 hi]; exact hg
      | some i => rw [h5 (by simp [hi])]; exact Or.inr ⟨rfl, rfl⟩
    obtain ⟨⟨gf, hgf, hgfa⟩, hall⟩ :=
      ih o.g rest harmed (fun t' ht' => hno t' (List.mem_cons_of_mem _ ht')) hrest
    exact ⟨⟨gf, (finalGlobals_cons_some g t ts gf).mpr ⟨o, ho, hgf⟩, hgfa⟩,
      List.Forall₂.cons ⟨h1, h2, h3, h4, harmed⟩ hall⟩

theorem forall₂_logs_nil (P : Tick → Outcome → Prop) (ts : List Tick) (os : List Outcome)
    (h : List.Forall₂ P ts os) (hP : ∀ t o, P t o → o.logs = [] ∧ o.writes = []) :
    os.flatMap Outcome.logs = [] ∧ os.flatMap Outcome.writes = [] := by
  induction h with
  | nil => exact ⟨rfl, rfl⟩
  | cons hto _ ih =>
    obtain ⟨h1, h2⟩ := hP _ _ hto
    simp [List.flatMap_cons, h1, h2, ih.1, ih.2]

theorem forall₂_right (P : Tick → Outcome → Prop) (Q : Outcome → Prop) (ts : List Tick)
    (os : List Outcome) (h : List.Forall₂ P ts os) (hP : ∀ t o, P t o → Q o) :
    ∀ o ∈ os, Q o := by
  induction h with
  | nil => intro o ho; cases ho
  | cons hto _ ih =>
    intro o ho
    rcases List.mem_cons.mp ho with rfl | ho
    · exact hP _ _ hto
    · exact ih o ho

/-- After `adjusted` is set and while no reset is requested, any number of
invocations returns, leaves the flags as they are and has no effect at all. -/
theorem runTicks_done (g : Globals) (hadj : g.g_adjusted = true)
    (hpend : g.g_pending_reset = false) (ts : List Tick) :
    finalGlobals g ts = some g ∧
    runTicks g ts =
      some (ts.map fun t => { ret := false, g := g, info := infoOf t.edit, trace := [] }) := by
  induction ts with
  | nil => exact ⟨rfl, rfl⟩
  | cons t ts ih =>
    have h := adjust_done t.os g t.edit hadj hpend
    rw [runTicks_cons, finalGlobals_cons]
    simp only [h, ih.1, ih.2, Option.map_some', List.map_cons, and_self]

theorem loop_withInfo (e : EDIT_SECTION) (i : Option EDIT_INFO) (max_layer : Int) (fuel : Nat) :
    ∀ (layer : Int) (st : ScanState),
      find_first_object.loop { e with info := i } max_layer fuel layer st =
        find_first_object.loop e max_layer fuel layer st := by
  induction fuel with
  | zero => intro layer st; rfl
  | succ f ih =>
    intro layer st
    simp only [find_first_object.loop]
    split_ifs
    · cases find_first_object.incr layer with
      | none => rfl
      | some next => exact ih next _
    · rfl

/-- The scanner does not look at the canvas size. -/
theorem find_first_object_withCanvas (w h : Int) (edit : Option EDIT_SECTION) :
    find_first_object (withCanvas w h edit) = find_first_object edit := by
  cases edit with
  | none => rfl
  | some e =>
    cases hi : e.info with
    | none => simp [withCanvas, find_first_object, hi]
    | some i =>
      simp only [withCanvas, Option.map_some', find_first_object, hi]
      split_ifs
      · rfl
      · rw [loop_withInfo]

theorem infoOf_withCanvas (w h : Int) (edit : Option EDIT_SECTION) :
    infoOf (withCanvas w h edit) = none ∨
    ∃ i : EDIT_INFO, infoOf (withCanvas w h edit) = some i ∧ i.width = w ∧ i.height = h := by
  cases edit with
  | none => left; rfl
  | some e =>
    cases hi : e.info with
    | none => left; simp [withCanvas, infoOf, hi]
    | some i =>
      right
      exact ⟨{ i with width := w, height := h }, by simp [withCanvas, infoOf, hi], rfl, rfl⟩

theorem session_step_tick (s : Session) (t : Tick) :
    Session.step s (Event.tick t) =
      match adjust_scene_if_needed t.os s.g (withCanvas s.width s.height t.edit) with
      | none => none
      | some o =>
        match o.info with
        | some i => some { g := o.g, width := i.width, height := i.height }
        | none => some { s with g := o.g } := rfl

theorem session_run_cons (s : Session) (ev : Event) (events : List Event) :
    Session.run s (ev :: events) =
      match Session.step s ev with
      | none => none
      | some s1 => Session.run s1 events := rfl

/-- A tick whose invocation leaves `*edit->info` alone leaves the canvas of
the session alone. -/
theorem session_tick_unchanged (s : Session) (t : Tick) (o : Outcome)
    (ho : adjust_scene_if_needed t.os s.g (withCanvas s.width s.height t.edit) = some o)
    (h : o.info = infoOf (withCanvas s.width s.height t.edit)) :
    Session.step s (Event.tick t) = some { s with g := o.g } := by
  rw [session_step_tick, ho]
  simp only [h]
  rcases infoOf_withCanvas s.width s.height t.edit with h0 | ⟨i, h0, hw, hh⟩
  · rw [h0]
  · rw [h0]; simp [hw, hh]

theorem session_done (g : Globals) (hadj : g.g_adjusted = true)
    (hpend : g.g_pending_reset = false) (ts : List Tick) (w h : Int) :
    Session.run { g := g, width := w, height := h } (ts.map Event.tick) =
      some { g := g, width := w, height := h } := by
  induction ts with
  | nil => rfl
  | cons t ts ih =>
    have hd := adjust_done t.os g (withCanvas w h t.edit) hadj hpend
    have hs := session_tick_unchanged { g := g, width := w, height := h } t _ hd rfl
    rw [List.map_cons, session_run_cons, hs]
    exact ih

/-! ## After the adjustment (C4) -/

/-- C4: in a state with `adjusted` set and no reset pending, for every
timeline, canvas and probe behaviour an invocation returns false, leaves the
three flags and the canvas as they are, logs nothing and calls neither the
scanner nor the extractor nor a probe (its effect trace is empty); hence any
number of invocations returns and gives the same flags and canvas as none. -/
theorem adjust_after_done_is_noop (os : OS) (g : Globals) (edit : Option EDIT_SECTION)
    (hadj : g.g_adjusted = true) (hpend : g.g_pending_reset = false) :
    adjust_scene_if_needed os g edit =
      some { ret := false, g := g, info := infoOf edit, trace := [] } ∧
    (∀ o, adjust_scene_if_needed os g edit = some o → o.logs = [] ∧ o.writes = []) ∧
    (∀ ts : List Tick, finalGlobals g ts = some g ∧
      runTicks g ts =
        some (ts.map fun t => { ret := false, g := g, info := infoOf t.edit, trace := [] }) ∧
      ∃ outs, runTicks g ts = some outs ∧
        List.Forall₂ (fun t o => o = { ret := false, g := g, info := infoOf t.edit, trace := [] })
          ts outs) ∧
    (∀ (ts : List Tick) (w h : Int),
      Session.run { g := g, width := w, height := h } (ts.map Event.tick) =
        some { g := g, width := w, height := h }) := by
  have h := adjust_done os g edit hadj hpend
  refine ⟨h, ?_, ?_, ?_⟩
  · intro o ho
    rw [h] at ho
    cases ho
    exact ⟨rfl, rfl⟩
  · intro ts
    obtain ⟨h1, h2⟩ := runTicks_done g hadj hpend ts
    refine ⟨h1, h2, _, h2, ?_⟩
    rw [List.forall₂_map_right_iff]
    exact List.forall₂_same.mpr (fun _ _ => rfl)
  · exact fun ts w h => session_done g hadj hpend ts w h

/-- C4 (witness): after an adjustment, an invocation on a timeline with a
different image and a different canvas does nothing. -/
theorem adjust_after_done_is_noop_witness :
    (⟨false, true, true⟩ : Globals).g_adjusted = true ∧
    (⟨false, true, true⟩ : Globals).g_pending_reset = false ∧
    adjust_scene_if_needed (sampleOS true 1920 1080) ⟨false, true, true⟩
        (some (sampleEdit 640 480 true 2)) =
      some { ret := false, g := ⟨false, true, true⟩,
             info := some { width := 640, height := 480, layer_max := 0 }, trace := [] } :=
  ⟨rfl, rfl, (adjust_after_done_is_noop (sampleOS true 1920 1080) ⟨false, true, true⟩
    (some (sampleEdit 640 480 true 2)) rfl rfl).1⟩

/-- With the seen and adjusted flags clear, ticks without a media-bearing
first object keep them clear and log and write nothing. -/
theorem runTicks_clear_no_media (ts : List Tick) :
    ∀ (g : Globals) (os : List Outcome), g.g_seen_first_object = false → g.g_adjusted = false →
    (∀ t ∈ ts, findsMedia t = false) → runTicks g ts = some os →
    List.Forall₂ (fun t o => o.ret = false ∧ o.g.g_seen_first_object = false ∧
      o.g.g_adjusted = false ∧ o.info = infoOf t.edit ∧ o.logs = [] ∧ o.writes = [])
      ts os := by
  induction ts with
  | nil =>
    intro g os _ _ _ h
    simp only [runTicks, Option.some.injEq] at h
    subst h
    exact List.Forall₂.nil
  | cons t ts ih =>
    intro g os hs ha hno h
    obtain ⟨o, rest, ho, hrest, rfl⟩ := (runTicks_cons_some g t ts os).mp h
    obtain ⟨h1, h2, h3, h4, h5, h6⟩ :=
      adjust_armed_no_media t.os g t.edit (Or.inr ⟨hs, ha⟩) (hno t (List.mem_cons_self _ _)) o ho
    have hg : o.g.g_seen_first_object = false ∧ o.g.g_adjusted = false := by
      cases hi : infoOf t.edit with
      | none => rw [h6 hi]; exact ⟨hs, ha⟩
      | some i => rw [h5 (by simp [hi])]; exact ⟨rfl, rfl⟩
    exact List.Forall₂.cons ⟨h1, hg.1, hg.2, h2, h3, h4⟩
      (ih _ rest hg.1 hg.2 (fun t' ht' => hno t' (List.mem_cons_of_mem _ ht')) hrest)

/-- An armed invocation whose first object carries media returns, behaves as
from the state with all three flags clear, sets the seen flag and probes the
media. -/
theorem adjust_armed_media_probes (os : OS) (g : Globals) (edit : Option EDIT_SECTION)
    (harmed : Armed g) (hm : findsMedia { os := os, edit := edit } = true) :
    adjust_scene_if_needed os g edit =
      adjust_scene_if_needed os
        { g_pending_reset := false, g_seen_first_object := false, g_adjusted := false } edit ∧
    ∃ o, adjust_scene_if_needed os g edit = some o ∧
      o.g.g_pending_reset = false ∧ o.g.g_seen_first_object = true ∧
      ∃ obj, find_first_object edit = some (some obj) ∧
        Effect.probe (extract_media_info os edit obj).kind
          (extract_media_info os edit obj).path ∈ o.trace := by
  obtain ⟨e, einfo, obj, rfl, hinfo, hobj, hkind, hpath⟩ := (findsMedia_iff os edit).mp hm
  rcases hp : probeDimensions os (extract_media_info os (some e) obj).kind
    (extract_media_info os (some e) obj).path with ⟨ok, w, h⟩
  have h1 := adjust_armed_media os g e einfo obj ok w h hinfo harmed hobj hkind hpath hp
  have h2 := adjust_armed_media os
    { g_pending_reset := false, g_seen_first_object := false, g_adjusted := false }
    e einfo obj ok w h hinfo (Or.inr ⟨rfl, rfl⟩) hobj hkind hpath hp
  refine ⟨by rw [h1, h2], _, h1, ?_, ?_, obj, hobj, ?_⟩ <;> split_ifs <;> simp

/-! ## Waiting for media (C5) -/

/-- C5: start from a reset state (seen and adjusted clear, or a reset pending
and every invocation given an edit section with info) and let every invocation
find no object or an object without media kind or path. Then every invocation
returns false, after every invocation `adjusted` and `seenFirstObject` are
false, the canvas is unchanged and no log line was emitted; and a media object
appearing at a later invocation is still treated as the first media object:
that invocation behaves as from the all-clear state, sets the seen flag and
probes the media. -/
theorem no_media_keeps_waiting (g : Globals) (ts : List Tick)
    (hstart : (g.g_seen_first_object = false ∧ g.g_adjusted = false) ∨
      (g.g_pending_reset = true ∧ ∀ t ∈ ts, (infoOf t.edit).isSome = true))
    (hno : ∀ t ∈ ts, noMedia t = true) :
    ∃ outs gf, runTicks g ts = some outs ∧ finalGlobals g ts = some gf ∧
      List.Forall₂ (fun t o => o.ret = false ∧ o.g.g_seen_first_object = false ∧
        o.g.g_adjusted = false ∧ o.info = infoOf t.edit ∧ o.logs = [] ∧ o.writes = [])
        ts outs ∧
      outs.flatMap Outcome.logs = [] ∧
      outs.flatMap Outcome.writes = [] ∧
      ∀ t : Tick, findsMedia t = true →
        adjust_scene_if_needed t.os gf t.edit =
          adjust_scene_if_needed t.os
            { g_pending_reset := false, g_seen_first_object := false, g_adjusted := false }
            t.edit ∧
        ∃ o, adjust_scene_if_needed t.os gf t.edit = some o ∧
          o.g.g_seen_first_object = true ∧
          ∃ obj, find_first_object t.edit = some (some obj) ∧
            Effect.probe (extract_media_info t.os t.edit obj).kind
              (extract_media_info t.os t.edit obj).path ∈ o.trace := by
  have hfm : ∀ t ∈ ts, findsMedia t = false := fun t ht => (noMedia_spec t (hno t ht)).1
  have hsr : ∀ t ∈ ts, scanReturns t = true := fun t ht => (noMedia_spec t (hno t ht)).2
  obtain ⟨outs, houts⟩ := Option.isSome_iff_exists.mp (runTicks_returns ts g hsr).1
  have harmed : Armed g := by
    rcases hstart with h | h
    · exact Or.inr h
    · exact Or.inl h.1
  obtain ⟨⟨gf, hgf, hgfa⟩, _⟩ := runTicks_armed_no_media ts g outs harmed hfm houts
  have hall : List.Forall₂ (fun t o => o.ret = false ∧ o.g.g_seen_first_object = false ∧
      o.g.g_adjusted = false ∧ o.info = infoOf t.edit ∧ o.logs = [] ∧ o.writes = [])
      ts outs := by
    rcases hstart with ⟨hs, ha⟩ | ⟨hp, hvalid⟩
    · exact runTicks_clear_no_media ts g outs hs ha hfm houts
    · cases ts with
      | nil =>
        simp only [runTicks, Option.some.injEq] at houts
        subst houts
        exact List.Forall₂.nil
      | cons t ts =>
        obtain ⟨o, rest, ho, hrest, rfl⟩ := (runTicks_cons_some g t ts outs).mp houts
        obtain ⟨h1, h2, h3, h4, h5, _⟩ :=
          adjust_armed_no_media t.os g t.edit (Or.inl hp) (hfm t (List.mem_cons_self _ _)) o ho
        have hg := h5 (hvalid t (List.mem_cons_self _ _))
        refine List.Forall₂.cons ⟨h1, by rw [hg], by rw [hg], h2, h3, h4⟩ ?_
        exact runTicks_clear_no_media ts _ rest (by rw [hg]) (by rw [hg])
          (fun t' ht' => hfm t' (List.mem_cons_of_mem _ ht')) hrest
  have hquiet := forall₂_logs_nil _ ts _ hall (fun _ _ h => ⟨h.2.2.2.2.1, h.2.2.2.2.2⟩)
  refine ⟨outs, gf, houts, hgf, hall, hquiet.1, hquiet.2, ?_⟩
  intro t ht
  obtain ⟨h1, o, ho, _, h3, h4⟩ := adjust_armed_media_probes t.os gf t.edit hgfa ht
  exact ⟨h1, o, ho, h3, h4⟩

/-- C5 (witness): from the initial flags, two ticks on an empty timeline
return and log nothing, and the image that appears afterwards is probed. -/
theorem no_media_keeps_waiting_witness :
    ∃ outs gf,
      runTicks {} [⟨sampleOS true 1920 1080, some (emptyEdit 640 480)⟩,
        ⟨sampleOS true 1920 1080, some (emptyEdit 640 480)⟩] = some outs ∧
      finalGlobals {} [⟨sampleOS true 1920 1080, some (emptyEdit 640 480)⟩,
        ⟨sampleOS true 1920 1080, some (emptyEdit 640 480)⟩] = some gf ∧
      outs.flatMap Outcome.logs = [] ∧
      ∃ o, adjust_scene_if_needed (sampleOS true 1920 1080) gf
          (some (sampleEdit 640 480 true 2)) = some o ∧
        o.g.g_seen_first_object = true := by
  obtain ⟨outs, gf, h1, h2, _, h4, _, h6⟩ := no_media_keeps_waiting {}
    [⟨sampleOS true 1920 1080, some (emptyEdit 640 480)⟩,
      ⟨sampleOS true 1920 1080, some (emptyEdit 640 480)⟩]
    (Or.inl ⟨rfl, rfl⟩) (by decide)
  obtain ⟨_, o, ho, hseen, _⟩ :=
    h6 ⟨sampleOS true 1920 1080, some (sampleEdit 640 480 true 2)⟩ (by decide)
  exact ⟨outs, gf, h1, h2, h4, o, ho, hseen⟩

/-- The first-media step with a log function: exactly one line, of one of the
three kinds, and at most one write of the canvas size. -/
theorem adjust_armed_media_one_log (os : OS) (g : Globals) (edit : Option EDIT_SECTION)
    (harmed : Armed g) (hm : findsMedia { os := os, edit := edit } = true)
    (hsink : hasSink edit = true) (o : Outcome)
    (ho : adjust_scene_if_needed os g edit = some o) :
    (∃ line, o.logs = [line] ∧
      (line = alreadyMessage ∨ (∃ p, line = failureMessage p) ∨
        ∃ w h, line = resizeMessage w h)) ∧
    o.writes.length ≤ 1 := by
  obtain ⟨e, einfo, obj, rfl, hinfo, hobj, hkind, hpath⟩ := (findsMedia_iff os edit).mp hm
  rcases hp : probeDimensions os (extract_media_info os (some e) obj).kind
    (extract_media_info os (some e) obj).path with ⟨ok, w, h⟩
  have h1 := adjust_armed_media os g e einfo obj ok w h hinfo harmed hobj hkind hpath hp
  have hs : e.output_log = true := hsink
  rw [h1] at ho
  simp only [hs, if_true, Option.some.injEq] at ho
  subst ho
  split_ifs
  · exact ⟨⟨_, rfl, Or.inr (Or.inl ⟨_, rfl⟩)⟩, by simp [Outcome.writes]⟩
  · exact ⟨⟨_, rfl, Or.inr (Or.inr ⟨_, _, rfl⟩)⟩, by simp [Outcome.writes]⟩
  · exact ⟨⟨_, rfl, Or.inl rfl⟩, by simp [Outcome.writes]⟩

/-! ## One attempt per project load (C2) -/

/-- C2: start with a reset pending and run any finite sequence of invocations
with no further project-load event, the timeline, canvas and probe outcome
being arbitrary at each of them. Let `t` be the earliest invocation whose
timeline shows a first object with a non-empty media path, and let the log
function be present there. The sequence completes whenever the scanner returns
on the other ticks; and whenever it completes, the invocations before and
after `t` emit no log line and write no canvas size, the invocation `t` emits
exactly one line (already-matches, probe-failure or resize) and writes the
canvas size at most once; so over the whole sequence exactly one line is
emitted and at most one write happens, both in that invocation. -/
theorem one_attempt_per_load (g : Globals) (pre post : List Tick) (t : Tick)
    (hreset : g.g_pending_reset = true)
    (hpre : ∀ t' ∈ pre, findsMedia t' = false) (ht : findsMedia t = true)
    (hsink : hasSink t.edit = true) :
    ((∀ t' ∈ pre ++ post, scanReturns t' = true) →
      (runTicks g (pre ++ t :: post)).isSome = true) ∧
    ∀ outs, runTicks g (pre ++ t :: post) = some outs →
      ∃ opre gpre ot opost,
        runTicks g pre = some opre ∧ finalGlobals g pre = some gpre ∧
        adjust_scene_if_needed t.os gpre t.edit = some ot ∧
        runTicks ot.g post = some opost ∧
        outs = opre ++ ot :: opost ∧
        (∀ o ∈ opre, o.logs = [] ∧ o.writes = []) ∧
        (∃ line, ot.logs = [line] ∧
          (line = alreadyMessage ∨ (∃ p, line = failureMessage p) ∨
            ∃ w h, line = resizeMessage w h)) ∧
        ot.writes.length ≤ 1 ∧
        (∀ o ∈ opost, o.logs = [] ∧ o.writes = []) ∧
        (outs.flatMap Outcome.logs).length = 1 ∧
        (outs.flatMap Outcome.writes).length ≤ 1 := by
  constructor
  · intro hret
    refine (runTicks_returns _ g ?_).1
    intro t' ht'
    rcases List.mem_append.mp ht' with h | h
    · exact hret t' (List.mem_append_left _ h)
    · rcases List.mem_cons.mp h with rfl | h
      · exact findsMedia_scanReturns _ ht
      · exact hret t' (List.mem_append_right _ h)
  · intro outs houts
    obtain ⟨opre, gpre, orest, hrpre, hgpre, hrrest, rfl⟩ :=
      (runTicks_append_some pre (t :: post) g outs).mp houts
    obtain ⟨ot, opost, hot, hrpost, rfl⟩ := (runTicks_cons_some gpre t post orest).mp hrrest
    obtain ⟨⟨gf, hgf, hgfa⟩, hpreq⟩ :=
      runTicks_armed_no_media pre g opre (Or.inl hreset) hpre hrpre
    rw [hgpre] at hgf
    cases hgf
    obtain ⟨_, o', ho', hpend, hseen, _⟩ := adjust_armed_media_probes t.os gpre t.edit hgfa ht
    rw [hot] at ho'
    cases ho'
    obtain ⟨hline, hwrite⟩ := adjust_armed_media_one_log t.os gpre t.edit hgfa ht hsink ot hot
    obtain ⟨_, hpostq⟩ := runTicks_latched ot.g hpend hseen post opost hrpost
    have hpre0 := forall₂_logs_nil _ _ _ hpreq (fun _ _ h => ⟨h.2.2.1, h.2.2.2.1⟩)
    have hpost0 := forall₂_logs_nil _ _ _ hpostq (fun _ _ h => ⟨h.2.2.2.1, h.2.2.2.2⟩)
    refine ⟨opre, gpre, ot, opost, hrpre, hgpre, hot, hrpost, rfl, ?_, hline, hwrite, ?_, ?_, ?_⟩
    · exact forall₂_right _ _ _ _ hpreq (fun _ _ h => ⟨h.2.2.1, h.2.2.2.1⟩)
    · exact forall₂_right _ _ _ _ hpostq (fun _ _ h => ⟨h.2.2.2.1, h.2.2.2.2⟩)
    · obtain ⟨line, hl, _⟩ := hline
      simp [List.flatMap_append, List.flatMap_cons, hpre0.1, hpost0.1, hl]
    · simp only [List.flatMap_append, List.flatMap_cons, hpre0.2, hpost0.2, List.nil_append,
        List.append_nil]
      exact hwrite

/-- C2 (witness): an empty timeline, then an image of 1920x1080 on a canvas
of 640x480, then a video on another canvas: the run completes with one log
line and at most one write. -/
theorem one_attempt_per_load_witness :
    ∃ outs,
      runTicks {} ([⟨sampleOS true 1920 1080, some (emptyEdit 640 480)⟩] ++
        ⟨sampleOS true 1920 1080, some (sampleEdit 640 480 true 2)⟩ ::
        [⟨sampleOS true 1280 720, some (sampleEdit 800 600 true 0)⟩]) = some outs ∧
      (outs.flatMap Outcome.logs).length = 1 ∧
      (outs.flatMap Outcome.writes).length ≤ 1 := by
  have h := one_attempt_per_load {}
    [⟨sampleOS true 1920 1080, some (emptyEdit 640 480)⟩]
    [⟨sampleOS true 1280 720, some (sampleEdit 800 600 true 0)⟩]
    ⟨sampleOS true 1920 1080, some (sampleEdit 640 480 true 2)⟩
    rfl (by decide) (by decide) rfl
  obtain ⟨outs, houts⟩ := Option.isSome_iff_exists.mp (h.1 (by decide))
  obtain ⟨_, _, _, _, _, _, _, _, _, _, _, _, _, h1, h2⟩ := h.2 outs houts
  exact ⟨outs, houts, h1, h2⟩

/-! ## Probe failure (C1) -/

/-- C1 (as amended): an invocation that is armed (a reset is pending, or seen
and adjusted are clear), finds a first object with a non-empty
media path, and whose probe fails or reports a non-positive width or
height, returns false with `adjusted` still false and `seenFirstObject` set;
it emits exactly one log line when the log function is present and none
otherwise, the line being the failure message, which contains the path; it
writes no canvas size and leaves width and height as they were. The seen flag
is what prevents a retry: later invocations with no load event return whenever
their scanner does, and change, log and write nothing. -/
theorem probe_failure_sets_seen_only (os : OS) (g : Globals) (e : EDIT_SECTION)
    (einfo : EDIT_INFO) (obj : OBJECT_HANDLE) (ok : Bool) (w h : Int)
    (hinfo : e.info = some einfo) (harmed : Armed g)
    (hobj : find_first_object (some e) = some (some obj))
    (hpath : (extract_media_info os (some e) obj).path ≠ [])
    (hprobe : probeDimensions os (extract_media_info os (some e) obj).kind
      (extract_media_info os (some e) obj).path = (ok, w, h))
    (hfail : ok = false ∨ w ≤ 0 ∨ h ≤ 0) :
    ∃ o, adjust_scene_if_needed os g (some e) = some o ∧
      o.ret = false ∧
      o.g = { g_pending_reset := false, g_seen_first_object := true, g_adjusted := false } ∧
      o.info = some einfo ∧
      o.writes = [] ∧
      o.logs =
        (if e.output_log then [failureMessage (extract_media_info os (some e) obj).path]
         else []) ∧
      (extract_media_info os (some e) obj).path <:+:
        failureMessage (extract_media_info os (some e) obj).path ∧
      (∀ ts : List Tick, (∀ t ∈ ts, scanReturns t = true) →
        (runTicks o.g ts).isSome = true) ∧
      (∀ (ts : List Tick) (outs : List Outcome), runTicks o.g ts = some outs →
        finalGlobals o.g ts = some o.g ∧
        List.Forall₂ (fun t o' => o'.ret = false ∧ o'.g = o.g ∧ o'.info = infoOf t.edit ∧
            o'.logs = [] ∧ o'.writes = [])
          ts outs) := by
  have hkind := kind_ne_none_of_path_ne_nil os e obj hpath
  have h1 := adjust_armed_media os g e einfo obj ok w h hinfo harmed hobj hkind hpath hprobe
  rw [if_pos hfail] at h1
  refine ⟨_, h1, rfl, rfl, rfl, ?_, ?_, ?_, ?_, ?_⟩
  · rcases Bool.eq_false_or_eq_true e.output_log with hs | hs <;> simp [Outcome.writes, hs]
  · rcases Bool.eq_false_or_eq_true e.output_log with hs | hs <;> simp [Outcome.logs, hs]
  · exact ⟨L "[auto_aspect] \"", L "\" のサイズ取得に失敗しました", rfl⟩
  · intro ts hts
    exact (runTicks_returns ts _ hts).1
  · intro ts outs houts
    exact runTicks_latched _ rfl rfl ts outs houts

/-- C1 (witness): an image that cannot be opened, on a canvas of 640x480. -/
theorem probe_failure_sets_seen_only_witness :
    ∃ o, adjust_scene_if_needed (sampleOS false 1920 1080) {}
        (some (sampleEdit 640 480 true 2)) = some o ∧
      o.g = { g_pending_reset := false, g_seen_first_object := true, g_adjusted := false } ∧
      o.info = some { width := 640, height := 480, layer_max := 0 } := by
  obtain ⟨o, ho, _, hg, hi, _⟩ := probe_failure_sets_seen_only (sampleOS false 1920 1080) {}
    (sampleEdit 640 480 true 2) { width := 640, height := 480, layer_max := 0 } 1 false 0 0
    rfl (Or.inl rfl) (by decide) (by decide) (by decide) (Or.inl rfl)
  exact ⟨o, ho, hg, hi⟩

/-- C1 (counterexample): the first object is an image whose file cannot be
opened; the invocation finds it with a non-empty path while the seen flag is
clear, the probe fails, the invocation returns, and afterwards `adjusted` is
false. Without a log function the same invocation emits no line. -/
theorem probe_failure_leaves_adjusted_false :
    find_first_object (some (sampleEdit 640 480 true 2)) = some (some 1) ∧
    extract_media_info (sampleOS false 1920 1080) (some (sampleEdit 640 480 true 2)) 1 =
      { kind := MediaKind.Image, path := samplePath } ∧
    probeDimensions (sampleOS false 1920 1080) MediaKind.Image samplePath = (false, 0, 0) ∧
    (adjust_scene_if_needed (sampleOS false 1920 1080) ⟨false, false, false⟩
      (some (sampleEdit 640 480 true 2))).map (fun o => o.g.g_adjusted) = some false ∧
    (adjust_scene_if_needed (sampleOS false 1920 1080) ⟨false, false, false⟩
      (some (sampleEdit 640 480 false 2))).map Outcome.logs = some [] := by
  decide

/-! ## Probe success (C8) -/

/-- C8 (as amended): an armed invocation that finds a first object with a
non-empty media path whose probe succeeds with positive `(w, h)`
returns true, sets `adjusted`, and leaves the canvas equal to `(w, h)`. When
the canvas differed in width or height it writes the size once and the line it
logs is the resize message, which contains the decimal text of `w` and of `h`;
when the canvas was already `(w, h)` it writes nothing and the line is the
already-matches message. The line is emitted exactly once when the log
function is present and not at all otherwise. -/
theorem probe_success_adjusts_canvas (os : OS) (g : Globals) (e : EDIT_SECTION)
    (einfo : EDIT_INFO) (obj : OBJECT_HANDLE) (w h : Int)
    (hinfo : e.info = some einfo) (harmed : Armed g)
    (hobj : find_first_object (some e) = some (some obj))
    (hpath : (extract_media_info os (some e) obj).path ≠ [])
    (hprobe : probeDimensions os (extract_media_info os (some e) obj).kind
      (extract_media_info os (some e) obj).path = (true, w, h))
    (hw : 0 < w) (hh : 0 < h) :
    ∃ o, adjust_scene_if_needed os g (some e) = some o ∧
      o.ret = true ∧
      o.g = { g_pending_reset := false, g_seen_first_object := true, g_adjusted := true } ∧
      o.info = some { einfo with width := w, height := h } ∧
      ((einfo.width ≠ w ∨ einfo.height ≠ h) →
        o.writes = [(w, h)] ∧
        o.logs = (if e.output_log then [resizeMessage w h] else [])) ∧
      ((einfo.width = w ∧ einfo.height = h) →
        o.writes = [] ∧
        o.info = some einfo ∧
        o.logs = (if e.output_log then [alreadyMessage] else [])) ∧
      (to_wstring w <:+: resizeMessage w h ∧ to_wstring h <:+: resizeMessage w h) := by
  have hkind := kind_ne_none_of_path_ne_nil os e obj hpath
  have h1 := adjust_armed_media os g e einfo obj true w h hinfo harmed hobj hkind hpath hprobe
  have hf : ¬ ((true : Bool) = false ∨ w ≤ 0 ∨ h ≤ 0) := by
    simp only [Bool.true_eq_false, false_or, not_or, not_le]
    exact ⟨hw, hh⟩
  rw [if_neg hf] at h1
  refine ⟨_, h1, ?_, ?_, ?_, ?_, ?_, ?_⟩
  · by_cases hd : einfo.width ≠ w ∨ einfo.height ≠ h
    · rw [if_pos hd]
    · rw [if_neg hd]
  · by_cases hd : einfo.width ≠ w ∨ einfo.height ≠ h
    · rw [if_pos hd]
    · rw [if_neg hd]
  · by_cases hd : einfo.width ≠ w ∨ einfo.height ≠ h
    · rw [if_pos hd]
    · rw [if_neg hd]
      have hd' : einfo.width = w ∧ einfo.height = h := by
        simpa only [not_or, not_not] using hd
      obtain ⟨w0, h0, lm⟩ := einfo
      simp only at hd'
      obtain ⟨rfl, rfl⟩ := hd'
      rfl
  · intro hd
    rw [if_pos hd]
    rcases Bool.eq_false_or_eq_true e.output_log with hs | hs <;>
      simp [Outcome.writes, Outcome.logs, hs]
  · intro hd
    have hd' : ¬ (einfo.width ≠ w ∨ einfo.height ≠ h) := by
      simp only [not_or, not_not]; exact hd
    rw [if_neg hd']
    rcases Bool.eq_false_or_eq_true e.output_log with hs | hs <;>
      simp [Outcome.writes, Outcome.logs, hs]
  · constructor
    · exact ⟨L "[auto_aspect] シーン解像度を ",
        L " x " ++ to_wstring h ++ L " に変更しました", by simp [resizeMessage]⟩
    · exact ⟨L "[auto_aspect] シーン解像度を " ++ to_wstring w ++ L " x ",
        L " に変更しました", by simp [resizeMessage]⟩

/-- C8 (witness): a canvas of 640x480 with an image of 1920x1080 becomes
1920x1080 and the resize line is logged; a canvas of 1280x720 with a video of
1280x720 is not written and the already-matches line is logged. -/
theorem probe_success_adjusts_canvas_witness :
    (∃ o, adjust_scene_if_needed (sampleOS true 1920 1080) {}
        (some (sampleEdit 640 480 true 2)) = some o ∧
      o.info = some { width := 1920, height := 1080, layer_max := 0 } ∧
      o.logs = [resizeMessage 1920 1080]) ∧
    (∃ o, adjust_scene_if_needed (sampleOS true 1280 720) {}
        (some (sampleEdit 1280 720 true 0)) = some o ∧
      o.writes = [] ∧ o.logs = [alreadyMessage]) := by
  obtain ⟨o1, ho1, _, _, hi1, hd1, _⟩ := probe_success_adjusts_canvas (sampleOS true 1920 1080) {}
    (sampleEdit 640 480 true 2) { width := 640, height := 480, layer_max := 0 } 1 1920 1080
    rfl (Or.inl rfl) (by decide) (by decide) (by decide) (by decide) (by decide)
  obtain ⟨o2, ho2, _, _, _, _, hs2, _⟩ := probe_success_adjusts_canvas (sampleOS true 1280 720) {}
    (sampleEdit 1280 720 true 0) { width := 1280, height := 720, layer_max := 0 } 1 1280 720
    rfl (Or.inl rfl) (by decide) (by decide) (by decide) (by decide) (by decide)
  exact ⟨⟨o1, ho1, hi1, (hd1 (Or.inl (by decide))).2⟩,
    ⟨o2, ho2, (hs2 ⟨rfl, rfl⟩).1, (hs2 ⟨rfl, rfl⟩).2.2⟩⟩

/-- C8 (counterexample): with no log function in the edit section, the
invocation on a canvas of 640x480 with an image of 1920x1080, started with
seen and adjusted clear, finds the image, probes 1920x1080, resizes the canvas
and returns true, and emits no log line. -/
theorem probe_success_without_log_function :
    find_first_object (some (sampleEdit 640 480 false 2)) = some (some 1) ∧
    extract_media_info (sampleOS true 1920 1080) (some (sampleEdit 640 480 false 2)) 1 =
      { kind := MediaKind.Image, path := samplePath } ∧
    probeDimensions (sampleOS true 1920 1080) MediaKind.Image samplePath = (true, 1920, 1080) ∧
    (adjust_scene_if_needed (sampleOS true 1920 1080) ⟨false, false, false⟩
      (some (sampleEdit 640 480 false 2))).map (fun o => o.ret) = some true ∧
    (adjust_scene_if_needed (sampleOS true 1920 1080) ⟨false, false, false⟩
      (some (sampleEdit 640 480 false 2))).map (fun o => o.info) =
      some (some { width := 1920, height := 1080, layer_max := 0 }) ∧
    (adjust_scene_if_needed (sampleOS true 1920 1080) ⟨false, false, false⟩
      (some (sampleEdit 640 480 false 2))).map Outcome.logs = some [] := by
  decide

/-- The two success branches agree on the result, the flags and the canvas. -/
theorem success_branches (einfo : EDIT_INFO) (w h : Int) (o a b : Outcome)
    (ho : o = if einfo.width ≠ w ∨ einfo.height ≠ h then a else b)
    (ha : a.ret = true ∧ a.g =
        { g_pending_reset := false, g_seen_first_object := true, g_adjusted := true } ∧
      a.info = some { einfo with width := w, height := h })
    (hb : b.ret = true ∧ b.g =
        { g_pending_reset := false, g_seen_first_object := true, g_adjusted := true } ∧
      b.info = some einfo) :
    o.ret = true ∧
    o.g = { g_pending_reset := false, g_seen_first_object := true, g_adjusted := true } ∧
    o.info = some { einfo with width := w, height := h } := by
  subst ho
  by_cases hd : einfo.width ≠ w ∨ einfo.height ≠ h
  · rw [if_pos hd]; exact ha
  · rw [if_neg hd]
    have hd' : einfo.width = w ∧ einfo.height = h := by
      simpa only [not_or, not_not] using hd
    refine ⟨hb.1, hb.2.1, ?_⟩
    rw [hb.2.2]
    obtain ⟨w0, h0, lm⟩ := einfo
    simp only at hd'
    obtain ⟨rfl, rfl⟩ := hd'
    rfl

/-- Every invocation that returns either returns false, leaves `*edit->info`
alone and does not set `adjusted`, or returns true after a successful probe
with positive dimensions, sets `adjusted` and leaves the canvas equal to the
probed size. -/
theorem adjust_summary (os : OS) (g : Globals) (edit : Option EDIT_SECTION) (o : Outcome)
    (ho : adjust_scene_if_needed os g edit = some o) :
    (o.ret = false ∧ o.info = infoOf edit ∧ o.writes = [] ∧
      ¬ (o.g.g_adjusted = true ∧ o.g.g_pending_reset = false ∧
        (g.g_pending_reset = true ∨ g.g_adjusted = false))) ∨
    (o.ret = true ∧
      (o.g.g_adjusted = true ∧ o.g.g_pending_reset = false ∧
        (g.g_pending_reset = true ∨ g.g_adjusted = false)) ∧
      ∃ e einfo obj w h, edit = some e ∧ e.info = some einfo ∧
        find_first_object edit = some (some obj) ∧
        probeDimensions os (extract_media_info os edit obj).kind
          (extract_media_info os edit obj).path = (true, w, h) ∧
        0 < w ∧ 0 < h ∧
        o.info = some { einfo with width := w, height := h }) := by
  by_cases harmed : Armed g
  · cases hm : findsMedia { os := os, edit := edit } with
    | false =>
      left
      obtain ⟨h1, h2, _, h4, h5, h6⟩ := adjust_armed_no_media os g edit harmed hm o ho
      refine ⟨h1, h2, h4, ?_⟩
      rintro ⟨ha, hp, hor⟩
      cases hi : infoOf edit with
      | none =>
        rw [h6 hi] at ha hp
        rcases hor with h | h
        · rw [h] at hp; cases hp
        · rw [h] at ha; cases ha
      | some i =>
        rw [h5 (by simp [hi])] at ha
        cases ha
    | true =>
      obtain ⟨e, einfo, obj, rfl, hinfo, hobj, hkind, hpath⟩ := (findsMedia_iff os edit).mp hm
      rcases hp : probeDimensions os (extract_media_info os (some e) obj).kind
        (extract_media_info os (some e) obj).path with ⟨ok, w, h⟩
      have h0 := adjust_armed_media os g e einfo obj ok w h hinfo harmed hobj hkind hpath hp
      rw [ho] at h0
      have h1 := Option.some.inj h0
      clear h0
      have hor : g.g_pending_reset = true ∨ g.g_adjusted = false := by
        rcases harmed with h | h
        · exact Or.inl h
        · exact Or.inr h.2
      by_cases hf : ok = false ∨ w ≤ 0 ∨ h ≤ 0
      · left
        rw [if_pos hf] at h1
        subst h1
        refine ⟨rfl, by simp [infoOf, hinfo], ?_, by simp⟩
        rcases Bool.eq_false_or_eq_true e.output_log with hs | hs <;> simp [Outcome.writes, hs]
      · right
        rw [if_neg hf] at h1
        simp only [not_or, not_le, Bool.not_eq_false] at hf
        obtain ⟨hok, hw, hh⟩ := hf
        subst hok
        have hs := success_branches einfo w h o _ _ h1 ⟨rfl, rfl, rfl⟩ ⟨rfl, rfl, rfl⟩
        refine ⟨hs.1, ⟨by rw [hs.2.1], by rw [hs.2.1], hor⟩, e, einfo, obj, w, h, rfl, hinfo,
          hobj, hp, hw, hh, hs.2.2⟩
  · left
    have hpend : g.g_pending_reset = false := by
      cases hp : g.g_pending_reset with
      | false => rfl
      | true => exact absurd (Or.inl hp) harmed
    cases ha : g.g_adjusted with
    | true =>
      have h := adjust_done os g edit ha hpend
      rw [ho] at h
      cases h
      refine ⟨rfl, rfl, rfl, ?_⟩
      rintro ⟨_, _, h1 | h1⟩
      · rw [hpend] at h1; cases h1
      · cases h1
    | false =>
      have hseen : g.g_seen_first_object = true := by
        cases hs : g.g_seen_first_object with
        | true => rfl
        | false => exact absurd (Or.inr ⟨hs, ha⟩) harmed
      obtain ⟨h1, h2, h3, _, h5⟩ := adjust_latched os g edit hpend hseen o ho
      refine ⟨h1, h3, h5, ?_⟩
      rintro ⟨h, _⟩
      rw [h2, ha] at h
      cases h

/-- An armed invocation on an edit section with info behaves as from the
state in which the three flags are clear, and when it returns no reset is
pending. -/
theorem adjust_armed_eq_clear (os : OS) (g : Globals) (e : EDIT_SECTION) (einfo : EDIT_INFO)
    (hinfo : e.info = some einfo) (harmed : Armed g) :
    adjust_scene_if_needed os g (some e) =
      adjust_scene_if_needed os
        { g_pending_reset := false, g_seen_first_object := false, g_adjusted := false }
        (some e) ∧
    ∀ o, adjust_scene_if_needed os g (some e) = some o → o.g.g_pending_reset = false := by
  have hc := armed_cleared g harmed
  constructor
  · unfold adjust_scene_if_needed
    simp only [hinfo, hc]
    rfl
  · intro o ho
    cases hm : findsMedia { os := os, edit := some e } with
    | false =>
      have h := (adjust_armed_no_media os g (some e) harmed hm o ho).2.2.2.2.1
        (by simp [infoOf, hinfo])
      rw [h]
    | true =>
      obtain ⟨_, o', ho', hp, _⟩ := adjust_armed_media_probes os g (some e) harmed hm
      rw [ho] at ho'
      cases ho'
      exact hp

theorem session_step_pos (s s' : Session) (ev : Event) (hs : Session.step s ev = some s')
    (hw : 0 < s.width) (hh : 0 < s.height) : 0 < s'.width ∧ 0 < s'.height := by
  cases ev with
  | load =>
    simp only [Session.step, Option.some.injEq] at hs
    subst hs
    exact ⟨hw, hh⟩
  | tick t =>
    cases ha : adjust_scene_if_needed t.os s.g (withCanvas s.width s.height t.edit) with
    | none => rw [session_step_tick, ha] at hs; cases hs
    | some o =>
      rcases adjust_summary t.os s.g (withCanvas s.width s.height t.edit) o ha with
        ⟨_, h2, _, _⟩ | ⟨_, _, e, einfo, obj, w, h, _, _, _, _, hw', hh', hi⟩
      · rw [session_tick_unchanged s t o ha h2] at hs
        cases hs
        exact ⟨hw, hh⟩
      · rw [session_step_tick, ha] at hs
        simp only [hi, Option.some.injEq] at hs
        subst hs
        exact ⟨hw', hh'⟩

theorem session_run_pos (events : List Event) :
    ∀ s s' : Session, Session.run s events = some s' → 0 < s.width → 0 < s.height →
      0 < s'.width ∧ 0 < s'.height := by
  induction events with
  | nil =>
    intro s s' h hw hh
    simp only [Session.run, Option.some.injEq] at h
    subst h
    exact ⟨hw, hh⟩
  | cons ev evs ih =>
    intro s s' h hw hh
    rw [session_run_cons] at h
    cases hs : Session.step s ev with
    | none => rw [hs] at h; cases h
    | some s1 =>
      rw [hs] at h
      obtain ⟨h1, h2⟩ := session_step_pos s s1 ev hs hw hh
      exact ih s1 s' h h1 h2

/-- A sequence of events completes when the scanner returns on each tick. -/
theorem session_run_returns (events : List Event) :
    ∀ s : Session, (∀ ev ∈ events, eventReturns ev = true) →
      (Session.run s events).isSome = true := by
  induction events with
  | nil => intro s _; rfl
  | cons ev evs ih =>
    intro s h
    have hstep : (Session.step s ev).isSome = true := by
      cases ev with
      | load => rfl
      | tick t =>
        have hr : scanReturns { os := t.os, edit := withCanvas s.width s.height t.edit } = true := by
          have := h (Event.tick t) (List.mem_cons_self _ _)
          unfold eventReturns scanReturns at this
          unfold scanReturns
          simp only at this ⊢
          rw [find_first_object_withCanvas]
          exact this
        obtain ⟨o, ho⟩ := Option.isSome_iff_exists.mp (adjust_returns t.os s.g _ hr)
        rw [session_step_tick, ho]
        simp only
        split <;> rfl
    obtain ⟨s1, hs1⟩ := Option.isSome_iff_exists.mp hstep
    rw [session_run_cons, hs1]
    exact ih s1 (fun ev' hev' => h ev' (List.mem_cons_of_mem _ hev'))

/-! ## Frame condition on the canvas (C10) -/

/-- C10: an invocation returns whenever its scanner does, and for every state,
timeline and probe outcome, after one invocation the canvas is what it was
before or it is the size `(w, h)` the probe reported with success, `w > 0` and
`h > 0`; it changes (and is written) only in an invocation that returns true;
and the invocation returns true exactly when it sets `adjusted`, that is when
`adjusted` is true afterwards while it was false, or cleared by the reset this
invocation consumed, before. A probe that succeeds with a negative width leaves
the canvas alone. Hence a canvas with positive dimensions keeps positive
dimensions under every sequence of invocations and load events, and such a
sequence completes whenever the scanner returns on each of its ticks. -/
theorem canvas_unchanged_or_probed_size (os : OS) (g : Globals) (edit : Option EDIT_SECTION) :
    (scanReturns { os := os, edit := edit } = true →
      (adjust_scene_if_needed os g edit).isSome = true) ∧
    (∀ o, adjust_scene_if_needed os g edit = some o →
      (o.info = infoOf edit ∨
        ∃ e einfo obj w h, edit = some e ∧ e.info = some einfo ∧
          find_first_object edit = some (some obj) ∧
          probeDimensions os (extract_media_info os edit obj).kind
            (extract_media_info os edit obj).path = (true, w, h) ∧
          0 < w ∧ 0 < h ∧
          o.info = some { einfo with width := w, height := h }) ∧
      (o.info ≠ infoOf edit → o.ret = true) ∧
      (o.writes ≠ [] → o.ret = true) ∧
      (o.ret = true ↔
        (o.g.g_adjusted = true ∧ o.g.g_pending_reset = false ∧
          (g.g_pending_reset = true ∨ g.g_adjusted = false)))) ∧
    (probeDimensions (sampleOS true 2147483648 1) MediaKind.Image samplePath =
        (true, -2147483648, 1) ∧
      adjust_scene_if_needed (sampleOS true 2147483648 1) {}
          (some (sampleEdit 640 480 true 2)) =
        some { ret := false, g := ⟨false, true, false⟩,
               info := some { width := 640, height := 480, layer_max := 0 },
               trace := [Effect.scan, Effect.extract 1,
                 Effect.probe MediaKind.Image samplePath,
                 Effect.log (failureMessage samplePath)] }) ∧
    (∀ (s s' : Session) (events : List Event), Session.run s events = some s' →
      0 < s.width → 0 < s.height → 0 < s'.width ∧ 0 < s'.height) ∧
    (∀ (s : Session) (events : List Event), (∀ ev ∈ events, eventReturns ev = true) →
      (Session.run s events).isSome = true) := by
  refine ⟨adjust_returns os g edit, ?_, by decide,
    fun s s' events => session_run_pos events s s', fun s events => session_run_returns events s⟩
  intro o ho
  refine ⟨?_, ?_, ?_, ?_⟩
  · rcases adjust_summary os g edit o ho with ⟨_, h2, _, _⟩ | ⟨_, _, h3⟩
    · exact Or.inl h2
    · exact Or.inr h3
  · intro hne
    rcases adjust_summary os g edit o ho with ⟨_, h2, _, _⟩ | ⟨h1, _, _⟩
    · exact absurd h2 hne
    · exact h1
  · intro hne
    rcases adjust_summary os g edit o ho with ⟨_, _, h3, _⟩ | ⟨h1, _, _⟩
    · exact absurd h3 hne
    · exact h1
  · rcases adjust_summary os g edit o ho with ⟨h1, _, _, h4⟩ | ⟨h1, h2, _⟩
    · constructor
      · intro h; rw [h1] at h; cases h
      · intro h; exact absurd h h4
    · exact ⟨fun _ => h2, fun _ => h1⟩

/-! ## Re-arming (C3) -/

/-- C3 (as amended): let `adjusted` be true and let `project_load_handler`
run, which sets `pendingReset` and leaves the other two flags. An invocation
without edit section or info then returns at once and leaves the request
pending. The next invocation with an edit section that has info clears
`pendingReset`, `seenFirstObject` and `adjusted` before scanning: it behaves
exactly as from the state with the three flags clear, and returns whenever
its scanner does. If it finds a first object with a non-empty media path whose
probe succeeds with positive dimensions, it performs one adjustment: it
returns true, `adjusted` is true, the canvas equals the probed size, at most
one write happens, and one log line is emitted when the log function is
present (none otherwise). Every later invocation with no further load event
returns false with an empty effect trace and unchanged flags and canvas. -/
theorem load_event_rearms (os : OS) (g : Globals) (e : EDIT_SECTION) (einfo : EDIT_INFO)
    (hadj : g.g_adjusted = true) (hinfo : e.info = some einfo) :
    ((project_load_handler g).g_pending_reset = true ∧
      (project_load_handler g).g_seen_first_object = g.g_seen_first_object ∧
      (project_load_handler g).g_adjusted = true) ∧
    (∀ edit : Option EDIT_SECTION, infoOf edit = none →
      adjust_scene_if_needed os (project_load_handler g) edit =
        some { ret := false, g := project_load_handler g, info := none, trace := [] }) ∧
    adjust_scene_if_needed os (project_load_handler g) (some e) =
      adjust_scene_if_needed os
        { g_pending_reset := false, g_seen_first_object := false, g_adjusted := false }
        (some e) ∧
    (scanReturns { os := os, edit := some e } = true →
      (adjust_scene_if_needed os (project_load_handler g) (some e)).isSome = true) ∧
    (∀ o, adjust_scene_if_needed os (project_load_handler g) (some e) = some o →
      o.g.g_pending_reset = false) ∧
    (∀ obj w h, find_first_object (some e) = some (some obj) →
      (extract_media_info os (some e) obj).path ≠ [] →
      probeDimensions os (extract_media_info os (some e) obj).kind
        (extract_media_info os (some e) obj).path = (true, w, h) →
      0 < w → 0 < h →
      ∃ o, adjust_scene_if_needed os (project_load_handler g) (some e) = some o ∧
        o.ret = true ∧
        o.g = { g_pending_reset := false, g_seen_first_object := true, g_adjusted := true } ∧
        o.info = some { einfo with width := w, height := h } ∧
        o.writes.length ≤ 1 ∧
        o.logs.length = (if e.output_log then 1 else 0) ∧
        ∀ ts : List Tick,
          finalGlobals o.g ts = some o.g ∧
          runTicks o.g ts =
            some (ts.map fun t =>
              { ret := false, g := o.g, info := infoOf t.edit, trace := [] }) ∧
          ∃ outs, runTicks o.g ts = some outs ∧
            List.Forall₂ (fun t o' => o' =
                { ret := false, g := o.g, info := infoOf t.edit, trace := [] })
              ts outs) := by
  have harmed : Armed (project_load_handler g) := Or.inl rfl
  obtain ⟨heq, hpend⟩ := adjust_armed_eq_clear os (project_load_handler g) e einfo hinfo harmed
  refine ⟨⟨rfl, rfl, hadj⟩, fun edit hi => adjust_no_info os _ edit hi, heq,
    adjust_returns os _ (some e), hpend, ?_⟩
  intro obj w h hobj hpath hprobe hw hh
  have hkind := kind_ne_none_of_path_ne_nil os e obj hpath
  have h1 := adjust_armed_media os (project_load_handler g) e einfo obj true w h hinfo harmed
    hobj hkind hpath hprobe
  have hf : ¬ ((true : Bool) = false ∨ w ≤ 0 ∨ h ≤ 0) := by
    simp only [Bool.true_eq_false, false_or, not_or, not_le]
    exact ⟨hw, hh⟩
  rw [if_neg hf] at h1
  cases hres : adjust_scene_if_needed os (project_load_handler g) (some e) with
  | none => rw [hres] at h1; cases h1
  | some o =>
    rw [hres] at h1
    have h1' := Option.some.inj h1
    have hs := success_branches einfo w h o _ _ h1' ⟨rfl, rfl, rfl⟩ ⟨rfl, rfl, rfl⟩
    refine ⟨o, rfl, hs.1, hs.2.1, hs.2.2, ?_, ?_, ?_⟩
    · rw [h1']
      by_cases hd : einfo.width ≠ w ∨ einfo.height ≠ h
      · rw [if_pos hd]
        rcases Bool.eq_false_or_eq_true e.output_log with hl | hl <;>
          simp [Outcome.writes, hl]
      · rw [if_neg hd]
        rcases Bool.eq_false_or_eq_true e.output_log with hl | hl <;>
          simp [Outcome.writes, hl]
    · rw [h1']
      by_cases hd : einfo.width ≠ w ∨ einfo.height ≠ h
      · rw [if_pos hd]
        rcases Bool.eq_false_or_eq_true e.output_log with hl | hl <;> simp [Outcome.logs, hl]
      · rw [if_neg hd]
        rcases Bool.eq_false_or_eq_true e.output_log with hl | hl <;> simp [Outcome.logs, hl]
    · intro ts
      rw [hs.2.1]
      obtain ⟨hf1, hf2⟩ := runTicks_done
        { g_pending_reset := false, g_seen_first_object := true, g_adjusted := true } rfl rfl ts
      refine ⟨hf1, hf2, _, hf2, ?_⟩
      rw [List.forall₂_map_right_iff]
      exact List.forall₂_same.mpr (fun _ _ => rfl)

/-- C3 (witness): after an adjustment, a load event and an image of
1920x1080 on a canvas of 640x480 give one more adjustment. -/
theorem load_event_rearms_witness :
    (⟨false, true, true⟩ : Globals).g_adjusted = true ∧
    ∃ o, adjust_scene_if_needed (sampleOS true 1920 1080)
        (project_load_handler ⟨false, true, true⟩) (some (sampleEdit 640 480 true 2)) =
        some o ∧
      o.info = some { width := 1920, height := 1080, layer_max := 0 } ∧
      o.logs.length = 1 := by
  obtain ⟨o, ho, _, _, hi, _, hl, _⟩ :=
    (load_event_rearms (sampleOS true 1920 1080) ⟨false, true, true⟩
      (sampleEdit 640 480 true 2) { width := 640, height := 480, layer_max := 0 }
      rfl rfl).2.2.2.2.2
      1 1920 1080 (by decide) (by decide) (by decide) (by decide) (by decide)
  exact ⟨rfl, o, ho, hi, hl⟩

/-- C3 (counterexample): with `adjusted` true and a reset requested, an
invocation whose edit section has no info returns and clears none of the
flags; and with info but without a log function, the invocation that resizes
the canvas for an image of 1920x1080 emits no log line. -/
theorem load_event_not_consumed_or_not_logged :
    (adjust_scene_if_needed (sampleOS true 1920 1080)
      (project_load_handler ⟨false, true, true⟩)
      (some { sampleEdit 640 480 true 2 with info := none })).map (fun o => o.g) =
      some ⟨true, true, true⟩ ∧
    (adjust_scene_if_needed (sampleOS true 1920 1080)
      (project_load_handler ⟨false, true, true⟩)
      (some (sampleEdit 640 480 false 2))).map (fun o => o.ret) = some true ∧
    (adjust_scene_if_needed (sampleOS true 1920 1080)
      (project_load_handler ⟨false, true, true⟩)
      (some (sampleEdit 640 480 false 2))).map (fun o => o.info) =
      some (some { width := 1920, height := 1080, layer_max := 0 }) ∧
    (adjust_scene_if_needed (sampleOS true 1920 1080)
      (project_load_handler ⟨false, true, true⟩)
      (some (sampleEdit 640 480 false 2))).map Outcome.logs = some [] := by
  decide

end AutoAspect
